import Mathlib

/-!
Verification of the GolfSim terrain heightfield engine and ball-flight
physics simulator.

The development is a shallow embedding of the C sources:
  * `src/terrain.c` / `include/terrain.h` — the heightfield (faces with four
    per-corner integer elevations stored redundantly, `uint16_t` arithmetic
    modelled as `ℕ` with explicit `% 65536`, heights sampled over `ℚ`);
  * `src/physics.c` / `include/physics.h` — the flight simulator
    (`float` arithmetic idealised as exact `ℚ`; `sqrtf` and `acosf` are taken
    as abstract parameters, so every theorem quantifies over them);
  * `src/round.c` — the round orchestrator.

Angle statements that genuinely need `arccos` are treated over `ℝ` in a
separate small section.
-/

namespace GolfSim

/-! ## Terrain data model (include/terrain.h) -/

/-- One grid cell: `Face` from terrain.h.  `vertices` holds the z-coordinate
of the four corners (`uint16_t` in C, hence values are kept in `[0, 65535]`
by the update operations); `material` abstracts the `const Material *`
pointer by the material's name. -/
structure Face where
  vertices : Fin 4 → ℕ
  material : String

/-- Index `TOP_LEFT = 0` of `Face::vertices`. -/
def TOP_LEFT : Fin 4 := 0
/-- Index `TOP_RIGHT = 1` of `Face::vertices`. -/
def TOP_RIGHT : Fin 4 := 1
/-- Index `BOTTOM_RIGHT = 2` of `Face::vertices`. -/
def BOTTOM_RIGHT : Fin 4 := 2
/-- Index `BOTTOM_LEFT = 3` of `Face::vertices`. -/
def BOTTOM_LEFT : Fin 4 := 3

/-- The `Terrain` record: `width`/`height` in faces, `xy_resolution` in yards
per edge, and the face store.  The C code keeps a malloc'd row-major array
`Face *faces` indexed by `row*width + col`; we model that heap region as a
total function from the flat index. -/
structure Terrain where
  width : ℕ
  height : ℕ
  xy_resolution : ℕ
  faces : ℕ → Face

/-- Source item `Terrain_FaceWidth`. -/
def Terrain_FaceWidth (t : Terrain) : ℕ := t.width

/-- Source item `Terrain_FaceHeight`. -/
def Terrain_FaceHeight (t : Terrain) : ℕ := t.height

/-- Source item `Terrain_VertexWidth = 1 + Terrain_FaceWidth`. -/
def Terrain_VertexWidth (t : Terrain) : ℕ := 1 + Terrain_FaceWidth t

/-- Source item `Terrain_VertexHeight = 1 + Terrain_FaceHeight`. -/
def Terrain_VertexHeight (t : Terrain) : ℕ := 1 + Terrain_FaceHeight t

/-- Source item `Terrain_GetFace`: `&terrain->faces[row*Terrain_FaceWidth(terrain) + col]`. -/
def Terrain_GetFace (t : Terrain) (row col : ℕ) : Face :=
  t.faces (row * Terrain_FaceWidth t + col)

/-- Writing through the pointer returned by `Terrain_GetFace`: store `face`
at flat index `row*width + col`. -/
def Terrain_SetFace (t : Terrain) (row col : ℕ) (face : Face) : Terrain :=
  { t with faces := Function.update t.faces (row * Terrain_FaceWidth t + col) face }

/-- The elevation of corner `v` of the face at `(row, col)`:
`Terrain_GetFace(terrain, row, col)->vertices[v]`. -/
def cornerVal (t : Terrain) (row col : ℕ) (v : Fin 4) : ℕ :=
  (Terrain_GetFace t row col).vertices v

/-- Source item `Terrain_Init`: all face corners are zeroed and every material is set to
rough; the loop over all `(row, col)` leaves the constant face everywhere. -/
def Terrain_Init (width height xy_resolution : ℕ) : Terrain :=
  { width := width
    height := height
    xy_resolution := xy_resolution
    faces := fun _ => { vertices := fun _ => 0, material := "rough" } }

/-! ## Elevation editing (src/terrain.c) -/

/-- The update `Face_RaiseVertex` applies to one `uint16_t` corner value:
`if (delta < 0 && -delta > *vertex) *vertex = 0; else *vertex += delta;`
(the `+=` is `uint16_t` arithmetic, i.e. mod `2^16`; in the `else` branch
`*vertex + delta ≥ 0`, so `Int.toNat` is exact). -/
def clampAdd (old : ℕ) (delta : ℤ) : ℕ :=
  if delta < 0 ∧ (old : ℤ) < -delta then 0 else ((old : ℤ) + delta).toNat % 65536

/-- Source item `Face_RaiseVertex(terrain, row, col, v, delta)` from src/terrain.c. -/
def Face_RaiseVertex (t : Terrain) (row col : ℕ) (v : Fin 4) (delta : ℤ) : Terrain :=
  let face := Terrain_GetFace t row col
  Terrain_SetFace t row col
    { face with vertices := Function.update face.vertices v (clampAdd (face.vertices v) delta) }

/-- Source item `Terrain_RaiseVertex(terrain, row, col, delta)`: raise each of the (up to
four) per-face copies of the logical vertex at `(row, col)` independently.
The four guarded updates mirror the F1–F4 cases in the source. -/
def Terrain_RaiseVertex (t : Terrain) (row col : ℕ) (delta : ℤ) : Terrain :=
  let t1 := if row < Terrain_FaceHeight t ∧ 0 < col
            then Face_RaiseVertex t row (col - 1) BOTTOM_RIGHT delta else t
  let t2 := if row < Terrain_FaceHeight t ∧ col < Terrain_FaceWidth t
            then Face_RaiseVertex t1 row col BOTTOM_LEFT delta else t1
  let t3 := if 0 < row ∧ col < Terrain_FaceWidth t
            then Face_RaiseVertex t2 (row - 1) col TOP_LEFT delta else t2
  if 0 < row ∧ 0 < col
  then Face_RaiseVertex t3 (row - 1) (col - 1) TOP_RIGHT delta else t3

/-- The row of the logical vertex stored at corner `v` of a face whose
bottom-left vertex is at `row`: the `if (vertex == TOP_LEFT || vertex ==
TOP_RIGHT) row += 1;` adjustment of `Terrain_RaiseFaceVertex`. -/
def logicalRow (row : ℕ) (v : Fin 4) : ℕ :=
  if v = TOP_LEFT ∨ v = TOP_RIGHT then row + 1 else row

/-- The column of the logical vertex stored at corner `v` of a face whose
bottom-left vertex is at `col`: the `if (vertex == TOP_RIGHT || vertex ==
BOTTOM_RIGHT) col += 1;` adjustment of `Terrain_RaiseFaceVertex`. -/
def logicalCol (col : ℕ) (v : Fin 4) : ℕ :=
  if v = TOP_RIGHT ∨ v = BOTTOM_RIGHT then col + 1 else col

/-- The `real_delta` computed by `Terrain_RaiseFaceVertex` from the face
minimum `mn`, maximum `mx`, the corner's current height `z` and the requested
`delta` (all C arithmetic here is on `int`, embedded exactly in `ℤ`). -/
def realDelta (mn mx z : ℕ) (delta : ℤ) : ℤ :=
  if 0 < delta then
    let rd := min delta ((mx : ℤ) - (z : ℤ))
    rd + max ((delta - rd) - ((z : ℤ) - (mn : ℤ))) 0
  else
    let rd := max delta ((mn : ℤ) - (z : ℤ))
    rd + min ((delta - rd) - ((z : ℤ) - (mx : ℤ))) 0

/-- Source item `Terrain_RaiseFaceVertex(terrain, min, max, row, col, vertex, delta)`:
computes `real_delta`, then calls `Terrain_RaiseVertex` on the logical
vertex of that corner (`row`/`col` incremented for top/right corners). -/
def Terrain_RaiseFaceVertex (t : Terrain) (mn mx row col : ℕ) (vertex : Fin 4)
    (delta : ℤ) : Terrain :=
  let z := (Terrain_GetFace t row col).vertices vertex
  let rd := realDelta mn mx z delta
  Terrain_RaiseVertex t (logicalRow row vertex) (logicalCol col vertex) rd

/-- The `min` computed by `Terrain_RaiseFace`: the nested
`UintMin(TL, UintMin(TR, UintMin(BR, BL)))` chain over the face's corners. -/
def faceMin (t : Terrain) (row col : ℕ) : ℕ :=
  min (cornerVal t row col TOP_LEFT)
    (min (cornerVal t row col TOP_RIGHT)
      (min (cornerVal t row col BOTTOM_RIGHT) (cornerVal t row col BOTTOM_LEFT)))

/-- The `max` computed by `Terrain_RaiseFace`: the nested
`UintMax(TL, UintMax(TR, UintMax(BR, BL)))` chain over the face's corners. -/
def faceMax (t : Terrain) (row col : ℕ) : ℕ :=
  max (cornerVal t row col TOP_LEFT)
    (max (cornerVal t row col TOP_RIGHT)
      (max (cornerVal t row col BOTTOM_RIGHT) (cornerVal t row col BOTTOM_LEFT)))

/-- Source item `Terrain_RaiseFace(terrain, row, col, delta)`: take the min and max of
the face's four corners, then apply `Terrain_RaiseFaceVertex` to the four
corners in source order. -/
def Terrain_RaiseFace (t : Terrain) (row col : ℕ) (delta : ℤ) : Terrain :=
  let mn := faceMin t row col
  let mx := faceMax t row col
  let u1 := Terrain_RaiseFaceVertex t mn mx row col TOP_LEFT delta
  let u2 := Terrain_RaiseFaceVertex u1 mn mx row col TOP_RIGHT delta
  let u3 := Terrain_RaiseFaceVertex u2 mn mx row col BOTTOM_RIGHT delta
  Terrain_RaiseFaceVertex u3 mn mx row col BOTTOM_LEFT delta

/-! ## Height sampling (src/terrain.c) -/

/-- Source item `Terrain_GetVertex(terrain, row, col)`: read the stored elevation of the
logical vertex at `(row, col)` out of one adjacent face. -/
def Terrain_GetVertex (t : Terrain) (row col : ℕ) : ℕ :=
  if row < Terrain_FaceHeight t then
    if col < Terrain_FaceWidth t then
      (Terrain_GetFace t row col).vertices BOTTOM_LEFT
    else
      (Terrain_GetFace t row (col - 1)).vertices BOTTOM_RIGHT
  else
    if col < Terrain_FaceWidth t then
      (Terrain_GetFace t (row - 1) col).vertices TOP_LEFT
    else
      (Terrain_GetFace t (row - 1) (col - 1)).vertices TOP_RIGHT

/-- The in-bounds precondition of `Terrain_GetVertex` (its two `ASSERT`s). -/
def GetVertexInBounds (t : Terrain) (row col : ℕ) : Prop :=
  row < Terrain_VertexHeight t ∧ col < Terrain_VertexWidth t

instance (t : Terrain) (row col : ℕ) : Decidable (GetVertexInBounds t row col) := by
  unfold GetVertexInBounds
  exact instDecidableAnd

/-- A 2-vector of rationals, mirroring `vec2` where it is used with exact
small-integer values in `Terrain_SampleHeight`. -/
structure Vec2 where
  x : ℚ
  y : ℚ

/-- The shared prefix of `Terrain_SampleHeight`: compute the integer parts
`row`, `col` and fractional parts `u`, `v` of `(x, y)/xy_resolution`
(`modff`; the precondition gives `x, y ≥ 0`, where truncation and floor
agree), then pick the triangle `(a, b, c)` containing `(u, v)`.
Returns `(u, v, a, b, c)`.  Note the source computes `row` from `x` and
`col` from `y`. -/
def Terrain_SampleSetup (t : Terrain) (x y : ℚ) : ℚ × ℚ × Vec2 × Vec2 × Vec2 :=
  let res : ℚ := (t.xy_resolution : ℚ)
  let row : ℚ := (⌊x / res⌋ : ℤ)
  let u : ℚ := x / res - row
  let col : ℚ := (⌊y / res⌋ : ℤ)
  let v : ℚ := y / res - col
  if u < v then
    -- Top left triangle
    (u, v, ⟨col, row + 1⟩, ⟨col, row⟩, ⟨col + 1, row + 1⟩)
  else
    -- Bottom right triangle
    (u, v, ⟨col + 1, row⟩, ⟨col + 1, row + 1⟩, ⟨col, row⟩)

/-- The three `Terrain_GetVertex` coordinate pairs `(round(·.y), round(·.x))`
that `Terrain_SampleHeight` looks up for a sample at `(x, y)`. -/
def Terrain_SampleAccesses (t : Terrain) (x y : ℚ) : List (ℕ × ℕ) :=
  let s := Terrain_SampleSetup t x y
  let a := s.2.2.1
  let b := s.2.2.2.1
  let c := s.2.2.2.2
  [ ((round a.y).toNat, (round a.x).toNat)
  , ((round b.y).toNat, (round b.x).toNat)
  , ((round c.y).toNat, (round c.x).toNat) ]

/-- Source item `Terrain_SampleHeight(terrain, x, y)`: barycentric interpolation over the
selected triangle, exactly as in the source (weights `Wa`, `Wb`,
`Wc = 1 - Wa - Wb`, then a weighted sum of three `Terrain_GetVertex`
lookups at the rounded triangle coordinates). -/
def Terrain_SampleHeight (t : Terrain) (x y : ℚ) : ℚ :=
  let s := Terrain_SampleSetup t x y
  let u := s.1
  let v := s.2.1
  let a := s.2.2.1
  let b := s.2.2.2.1
  let c := s.2.2.2.2
  let Wa := ((b.y - c.y) * (u - c.x) + (c.x - b.x) * (v - c.y)) /
            ((b.y - c.y) * (a.x - c.x) + (c.x - b.x) * (a.y - c.y))
  let Wb := ((c.y - a.y) * (u - c.x) + (a.x - c.x) * (v - c.y)) /
            ((b.y - c.y) * (a.x - c.x) + (c.x - b.x) * (a.y - c.y))
  let Wc := 1 - Wa - Wb
  Wa * (Terrain_GetVertex t (round a.y).toNat (round a.x).toNat : ℚ) +
  Wb * (Terrain_GetVertex t (round b.y).toNat (round b.x).toNat : ℚ) +
  Wc * (Terrain_GetVertex t (round c.y).toNat (round c.x).toNat : ℚ)

/-- The documented precondition of `Terrain_SampleHeight` (its `ASSERT`s):
`0 <= x < width*xy_resolution` and `0 <= y < height*xy_resolution`. -/
def SampleHeightPre (t : Terrain) (x y : ℚ) : Prop :=
  0 ≤ x ∧ x < (Terrain_FaceWidth t : ℚ) * (t.xy_resolution : ℚ) ∧
  0 ≤ y ∧ y < (Terrain_FaceHeight t : ℚ) * (t.xy_resolution : ℚ)

/-! ## Editing sequences and the redundant-storage invariant -/

/-- An elevation-editing call: `Terrain_RaiseVertex` or `Terrain_RaiseFace`. -/
inductive TerrainOp where
  | raiseVertex (row col : ℕ) (delta : ℤ)
  | raiseFace (row col : ℕ) (delta : ℤ)

/-- Execute one editing call. -/
def TerrainOp.apply : TerrainOp → Terrain → Terrain
  | .raiseVertex r c δ, t => Terrain_RaiseVertex t r c δ
  | .raiseFace r c δ, t => Terrain_RaiseFace t r c δ

/-- Execute a sequence of editing calls, first element first. -/
def applyOps (ops : List TerrainOp) (t : Terrain) : Terrain :=
  ops.foldl (fun t op => op.apply t) t

/-- The documented in-range precondition of each call: `Terrain_RaiseVertex`
accepts vertex coordinates (`row <= height`, `col <= width`, its `ASSERT`s),
`Terrain_RaiseFace` face coordinates (`row < height`, `col < width`). -/
def TerrainOp.InRange (width height : ℕ) : TerrainOp → Prop
  | .raiseVertex r c _ => r ≤ height ∧ c ≤ width
  | .raiseFace r c _ => r < height ∧ c < width

instance (width height : ℕ) (op : TerrainOp) : Decidable (op.InRange width height) := by
  cases op <;> exact instDecidableAnd

/-- The list of redundant per-face copies of the logical vertex at
`(row, col)`: one copy per adjacent face, with the same four adjacency cases
(F1–F4) as `Terrain_RaiseVertex`. -/
def VertexCopies (t : Terrain) (row col : ℕ) : List ℕ :=
  (if row < Terrain_FaceHeight t ∧ 0 < col
   then [cornerVal t row (col - 1) BOTTOM_RIGHT] else []) ++
  (if row < Terrain_FaceHeight t ∧ col < Terrain_FaceWidth t
   then [cornerVal t row col BOTTOM_LEFT] else []) ++
  (if 0 < row ∧ col < Terrain_FaceWidth t
   then [cornerVal t (row - 1) col TOP_LEFT] else []) ++
  (if 0 < row ∧ 0 < col
   then [cornerVal t (row - 1) (col - 1) TOP_RIGHT] else [])

/-- The critical invariant: all redundant copies of each logical vertex hold
exactly equal values. -/
def Terrain_VertexConsistent (t : Terrain) : Prop :=
  ∀ row col, row ≤ Terrain_FaceHeight t → col ≤ Terrain_FaceWidth t →
    ∀ z1 ∈ VertexCopies t row col, ∀ z2 ∈ VertexCopies t row col, z1 = z2

/-- Safety property of one `Terrain_SampleHeight` call: every internal
`Terrain_GetVertex` lookup it performs is within bounds. -/
def SampleAccessesInBounds (t : Terrain) (x y : ℚ) : Prop :=
  ∀ p ∈ Terrain_SampleAccesses t x y, GetVertexInBounds t p.1 p.2

/-! ## Vectors and the flight model (include/matrix.h, src/physics.c)

`float` arithmetic is idealised as exact `ℚ`; `sqrtf` (used via `vec3_Norm`)
and `acosf` are abstract parameters, so theorems below hold for every
choice of those functions. -/

/-- A 3-vector of rationals, mirroring `vec3`. -/
structure Vec3 where
  x : ℚ
  y : ℚ
  z : ℚ

/-- Source item `vec3_Scale`. -/
def vec3_Scale (scalar : ℚ) (v : Vec3) : Vec3 :=
  ⟨scalar * v.x, scalar * v.y, scalar * v.z⟩

/-- Source item `vec3_Add` (also `vec3_AddInPlace`, whose result is the sum). -/
def vec3_Add (u v : Vec3) : Vec3 :=
  ⟨u.x + v.x, u.y + v.y, u.z + v.z⟩

/-- Source item `vec3_Cross`. -/
def vec3_Cross (u v : Vec3) : Vec3 :=
  ⟨u.y * v.z - u.z * v.y, u.z * v.x - u.x * v.z, u.x * v.y - u.y * v.x⟩

/-- Source item `vec3_Norm`: `sqrtf(x*x + y*y + z*z)`, with `sqrtf` abstract. -/
def vec3_Norm (sqrtf : ℚ → ℚ) (v : Vec3) : ℚ :=
  sqrtf (v.x * v.x + v.y * v.y + v.z * v.z)

/-- Modelled from the spec: `vec3_Dot`, one of the assumed-available
matrix/vector utility primitives (declared in the repository's full
`matrix.h` but absent from the provided sources): the Euclidean dot
product. -/
def vec3_Dot (u v : Vec3) : ℚ :=
  u.x * v.x + u.y * v.y + u.z * v.z

/-- Source item `vec3_Normalize`: `vec3_Scale(1/vec3_Norm(v), v)`. -/
def vec3_Normalize (sqrtf : ℚ → ℚ) (v : Vec3) : Vec3 :=
  vec3_Scale (1 / vec3_Norm sqrtf v) v

/-- Modelled from the spec: `FloatMin`, the float analogue of the
`UintMin`/`IntMin` helpers of `matrix.h` (absent from the provided sources;
the spec describes the use site as "fixed sub-steps of 5 ms, the last
sub-step may be shorter"): the minimum of two rationals. -/
def FloatMin (x y : ℚ) : ℚ := min x y

/-- Source item `K_SPIN` (src/physics.c). -/
def K_SPIN : ℚ := 0.00525
/-- Source item `K_SPIN_DECAY` (src/physics.c). -/
def K_SPIN_DECAY : ℚ := 0.0027
/-- Source item `K_DRAG` (src/physics.c). -/
def K_DRAG : ℚ := 0.0065
/-- Source item `NUMERIC_DT`: the fixed 5 ms sub-step of the numeric integration. -/
def NUMERIC_DT : ℚ := 5
/-- The gravity vector `{ 0, 0, -1.07e-5 }` (9.8 m/s² in yd/ms²). -/
def GRAVITY : Vec3 := ⟨0, 0, -1.07e-5⟩

/-- Source item `ShotStatus` (include/physics.h). -/
structure ShotStatus where
  launch_angle : ℚ
  land_angle : ℚ
  apex : ℚ
  apex_distance : ℚ
  curve : ℚ
  carry : ℚ
  hang_time : ℚ
  x : Vec3
  v : Vec3
  s : Vec3

/-- The all-zero `ShotStatus` (`memset(&round->shot, 0, ...)`). -/
def ShotStatus.zero : ShotStatus :=
  ⟨0, 0, 0, 0, 0, 0, 0, ⟨0, 0, 0⟩, ⟨0, 0, 0⟩, ⟨0, 0, 0⟩⟩

/-- Whether a position is inside the grid's horizontal extent; the negation
of the out-of-bounds test in `FlightSim_Step`. -/
def inBoundsXY (terrain : Terrain) (p : Vec3) : Prop :=
  (0 ≤ p.x ∧ p.x < (Terrain_FaceWidth terrain : ℚ) * (terrain.xy_resolution : ℚ)) ∧
  (0 ≤ p.y ∧ p.y < (Terrain_FaceHeight terrain : ℚ) * (terrain.xy_resolution : ℚ))

instance (terrain : Terrain) (p : Vec3) : Decidable (inBoundsXY terrain p) :=
  instDecidableAnd

/-- One iteration of the do-while body of `FlightSim_Step` at sub-step `dt`:
position update with the current velocity, acceleration
`g + K_SPIN (s×v) - K_DRAG |s| v`, spin decay `-K_SPIN_DECAY s`, velocity and
spin updates, then the termination checks.  The second component is `true`
when the iteration falls through (or hits `continue`) and `false` when the
source returns `false` (ball at rest, with `z` clamped). -/
def flightSubStep (sqrtf : ℚ → ℚ) (terrain : Terrain) (dt : ℚ)
    (st : ShotStatus) : ShotStatus × Bool :=
  let dx := vec3_Scale dt st.v
  let x1 := vec3_Add dx st.x
  let a_spin := vec3_Scale K_SPIN (vec3_Cross st.s st.v)
  let a1 := vec3_Add a_spin GRAVITY
  let a_drag := vec3_Scale (-K_DRAG * vec3_Norm sqrtf st.s) st.v
  let a2 := vec3_Add a_drag a1
  let alpha := vec3_Scale (-K_SPIN_DECAY) st.s
  let dv := vec3_Scale dt a2
  let v1 := vec3_Add dv st.v
  let ds := vec3_Scale dt alpha
  let s1 := vec3_Add ds st.s
  let st1 : ShotStatus := { st with x := x1, v := v1, s := s1 }
  if ¬(0 ≤ x1.x ∧ x1.x < (Terrain_FaceWidth terrain : ℚ) * (terrain.xy_resolution : ℚ)) ∨
     ¬(0 ≤ x1.y ∧ x1.y < (Terrain_FaceHeight terrain : ℚ) * (terrain.xy_resolution : ℚ)) then
    if 0 < x1.z then (st1, true)
    else ({ st1 with x := { x1 with z := 0 } }, false)
  else
    let z := Terrain_SampleHeight terrain x1.x x1.y
    if x1.z ≤ z then ({ st1 with x := { x1 with z := z } }, false)
    else (st1, true)

/-- Source item `FlightSim_Step(terrain, t, status)`: iterate the sub-step body in
increments of `FloatMin(NUMERIC_DT, t)` until the remaining time hits zero
(the do-while loop), or until the ball comes to rest. -/
def FlightSim_Step (sqrtf : ℚ → ℚ) (terrain : Terrain) (t : ℚ)
    (status : ShotStatus) : ShotStatus × Bool :=
  let dt := FloatMin NUMERIC_DT t
  let t1 := t - dt
  let r := flightSubStep sqrtf terrain dt status
  if r.2 then
    if h : 0 < t1 then FlightSim_Step sqrtf terrain t1 r.1 else (r.1, true)
  else (r.1, false)
termination_by (⌈t / 5⌉).toNat
decreasing_by
  have h9 : 0 < t - min 5 t := h
  have h5 : (5 : ℚ) < t := by
    rcases le_total (5 : ℚ) t with h1 | h1
    · have e := min_eq_left h1
      rw [e] at h9
      linarith
    · have e := min_eq_right h1
      rw [e] at h9
      linarith
  have hmin : min (5 : ℚ) t = 5 := min_eq_left (le_of_lt h5)
  have hceil : ⌈(t - min (5 : ℚ) t) / 5⌉ = ⌈t / 5⌉ - 1 := by
    rw [hmin]
    have hdiv : (t - 5) / 5 = t / 5 - 1 := by ring
    rw [hdiv, Int.ceil_sub_one]
  have h2 : (1 : ℤ) < ⌈t / 5⌉ := by
    rw [Int.lt_ceil]
    push_cast
    linarith
  show (⌈(t - min (5 : ℚ) t) / 5⌉).toNat < (⌈t / 5⌉).toNat
  rw [hceil]
  omega

/-- The state after `k` sub-steps of `NUMERIC_DT = 5` milliseconds each. -/
def flightIter (sqrtf : ℚ → ℚ) (terrain : Terrain) : ℕ → ShotStatus → ShotStatus
  | 0, st => st
  | k + 1, st =>
    (flightSubStep sqrtf terrain 5 (flightIter sqrtf terrain k st)).1

/-- Repeated caller invocations (`n` of them) of `FlightSim_Step(terrain, dt, status)`,
stopping early if the ball comes to rest (as the caller contract demands). -/
def FlightSim_Multi (sqrtf : ℚ → ℚ) (terrain : Terrain) (dt : ℚ) :
    ℕ → ShotStatus → ShotStatus × Bool
  | 0, st => (st, true)
  | n + 1, st =>
    let r := FlightSim_Step sqrtf terrain dt st
    if r.2 then FlightSim_Multi sqrtf terrain dt n r.1 else (r.1, false)

/-- Source item `struct Simulation` (src/physics.c): initial position, initial
normalized horizontal heading, and the terrain.  The `ShotStatus *status`
pointer is modelled by passing the status explicitly to `Simulation_Step`. -/
structure Simulation where
  x0 : Vec3
  target : Vec3
  terrain : Terrain

/-- Source item `Simulation_New(terrain, status)`: clear the derived statistics, save the
initial position and normalized horizontal heading, and compute
`launch_angle = acosf(v ⋅ target / |v|)`.  Returns the new simulation and the
updated status. -/
def Simulation_New (sqrtf acosf : ℚ → ℚ) (terrain : Terrain)
    (status : ShotStatus) : Simulation × ShotStatus :=
  let status1 : ShotStatus :=
    { status with land_angle := 0, apex := 0, apex_distance := 0,
                  curve := 0, carry := 0, hang_time := 0 }
  let target := vec3_Normalize sqrtf ⟨status1.v.x, status1.v.y, 0⟩
  let cos_theta := vec3_Dot status1.v target / vec3_Norm sqrtf status1.v
  ({ x0 := status1.x, target := target, terrain := terrain },
   { status1 with launch_angle := acosf cos_theta })

/-- Source item `Simulation_Step(sim, dt)`: run `FlightSim_Step`, then recompute the
statistics (`hang_time`, `carry`, `apex`, `curve`,
`land_angle = acosf(v ⋅ v_xy / (|v| |v_xy|))`) from the updated state. -/
def Simulation_Step (sqrtf acosf : ℚ → ℚ) (sim : Simulation) (dt : ℕ)
    (status : ShotStatus) : ShotStatus × Bool :=
  let r := FlightSim_Step sqrtf sim.terrain (dt : ℚ) status
  let st1 : ShotStatus := { r.1 with hang_time := r.1.hang_time + (dt : ℚ) }
  let carry : Vec3 := ⟨st1.x.x - sim.x0.x, st1.x.y - sim.x0.y, 0⟩
  let heading := vec3_Normalize sqrtf carry
  let st2 : ShotStatus := { st1 with carry := vec3_Norm sqrtf carry }
  let height := st2.x.z - sim.x0.z
  let st3 : ShotStatus :=
    if st2.apex < height then { st2 with apex := height, apex_distance := st2.carry }
    else st2
  let sin_theta := (vec3_Cross sim.target heading).z
  let st4 : ShotStatus := { st3 with curve := st3.carry * sin_theta }
  let vxy : Vec3 := ⟨st4.v.x, st4.v.y, 0⟩
  let cos_phi := vec3_Dot st4.v vxy / (vec3_Norm sqrtf st4.v * vec3_Norm sqrtf vxy)
  ({ st4 with land_angle := acosf cos_phi }, r.2)

/-- A sequence of `Simulation_Step` calls with per-call time deltas `dts`,
threading the `ShotStatus` through. -/
def Simulation_StepList (sqrtf acosf : ℚ → ℚ) (sim : Simulation) :
    List ℕ → ShotStatus → ShotStatus
  | [], st => st
  | dt :: rest, st =>
    Simulation_StepList sqrtf acosf sim rest (Simulation_Step sqrtf acosf sim dt st).1

/-! ## Round orchestrator (src/round.c) -/

/-- Source item `Round`: an optional live simulation, the shot status, the terrain. -/
structure Round where
  shot_sim : Option Simulation
  shot : ShotStatus
  terrain : Terrain

/-- Source item `Round_Start`: no simulator, zeroed shot statistics. -/
def Round_Start (terrain : Terrain) : Round :=
  { shot_sim := none, shot := ShotStatus.zero, terrain := terrain }

/-- Source item `Round_Swing(round, v, s)`: a logged no-op when a shot is in progress;
otherwise set the status velocity and spin and start a new simulation from
the current ball position. -/
def Round_Swing (sqrtf acosf : ℚ → ℚ) (round : Round) (v s : Vec3) : Round :=
  if round.shot_sim.isSome then round
  else
    let shot1 : ShotStatus := { round.shot with v := v, s := s }
    let r := Simulation_New sqrtf acosf round.terrain shot1
    { round with shot := r.2, shot_sim := some r.1 }

/-- Source item `Round_Step(round, dt)`: advance an active simulation; destroy it when
the ball comes to rest. -/
def Round_Step (sqrtf acosf : ℚ → ℚ) (round : Round) (dt : ℕ) : Round :=
  match round.shot_sim with
  | none => round
  | some sim =>
    let r := Simulation_Step sqrtf acosf sim dt round.shot
    if r.2 then { round with shot := r.1 }
    else { round with shot := r.1, shot_sim := none }

/-! ## Real-valued angle formulas (src/physics.c)

The launch/land-angle claims are about `acosf` itself, so for them the angle
computations are embedded over `ℝ` with the true `Real.arccos` and
`Real.sqrt` instead of abstract parameters. -/

/-- Source item `vec3_Norm` over `ℝ`. -/
noncomputable def vec3_NormR (x y z : ℝ) : ℝ :=
  Real.sqrt (x * x + y * y + z * z)

/-- The `launch_angle` computed by `Simulation_New` from the initial velocity
`(vx, vy, vz)`: `acosf(v ⋅ target / |v|)` with
`target = vec3_Normalize((vx, vy, 0))`. -/
noncomputable def Simulation_New_launch_angle (vx vy vz : ℝ) : ℝ :=
  let n := vec3_NormR vx vy 0
  let tx := 1 / n * vx
  let ty := 1 / n * vy
  Real.arccos ((vx * tx + vy * ty + vz * 0) / vec3_NormR vx vy vz)

/-- The `land_angle` computed by `Simulation_Step` from the current velocity
`(vx, vy, vz)`: `acosf(v ⋅ v_xy / (|v| |v_xy|))` with `v_xy = (vx, vy, 0)`. -/
noncomputable def Simulation_Step_land_angle (vx vy vz : ℝ) : ℝ :=
  Real.arccos ((vx * vx + vy * vy + vz * 0) /
    (vec3_NormR vx vy vz * vec3_NormR vx vy 0))

/-- The angle of the velocity vector `(vx, vy, vz)` measured from the
vertical: the angle between the velocity and the upward axis `(0,0,1)`. -/
noncomputable def angleFromVertical (vx vy vz : ℝ) : ℝ :=
  Real.arccos (vz / vec3_NormR vx vy vz)

/-- The (unsigned) angle of the velocity vector `(vx, vy, vz)` measured from
the horizontal plane. -/
noncomputable def angleFromHorizontal (vx vy vz : ℝ) : ℝ :=
  Real.arcsin (|vz| / vec3_NormR vx vy vz)

/-! ## Dimension preservation by the editing operations -/

@[simp]
theorem Terrain_SetFace_width (t : Terrain) (r c : ℕ) (f : Face) :
    (Terrain_SetFace t r c f).width = t.width := rfl

@[simp]
theorem Terrain_SetFace_height (t : Terrain) (r c : ℕ) (f : Face) :
    (Terrain_SetFace t r c f).height = t.height := rfl

@[simp]
theorem Face_RaiseVertex_width (t : Terrain) (r c : ℕ) (v : Fin 4) (δ : ℤ) :
    (Face_RaiseVertex t r c v δ).width = t.width := rfl

@[simp]
theorem Face_RaiseVertex_height (t : Terrain) (r c : ℕ) (v : Fin 4) (δ : ℤ) :
    (Face_RaiseVertex t r c v δ).height = t.height := rfl

@[simp]
theorem Terrain_width_ite (c : Prop) [Decidable c] (a b : Terrain) :
    (if c then a else b).width = if c then a.width else b.width :=
  apply_ite Terrain.width c a b

@[simp]
theorem Terrain_height_ite (c : Prop) [Decidable c] (a b : Terrain) :
    (if c then a else b).height = if c then a.height else b.height :=
  apply_ite Terrain.height c a b

@[simp]
theorem Terrain_RaiseVertex_width (t : Terrain) (r c : ℕ) (δ : ℤ) :
    (Terrain_RaiseVertex t r c δ).width = t.width := by
  unfold Terrain_RaiseVertex
  dsimp only
  split_ifs <;> rfl

@[simp]
theorem Terrain_RaiseVertex_height (t : Terrain) (r c : ℕ) (δ : ℤ) :
    (Terrain_RaiseVertex t r c δ).height = t.height := by
  unfold Terrain_RaiseVertex
  dsimp only
  split_ifs <;> rfl

@[simp]
theorem Terrain_RaiseFaceVertex_width (t : Terrain) (mn mx r c : ℕ) (v : Fin 4) (δ : ℤ) :
    (Terrain_RaiseFaceVertex t mn mx r c v δ).width = t.width := by
  unfold Terrain_RaiseFaceVertex
  simp

@[simp]
theorem Terrain_RaiseFaceVertex_height (t : Terrain) (mn mx r c : ℕ) (v : Fin 4) (δ : ℤ) :
    (Terrain_RaiseFaceVertex t mn mx r c v δ).height = t.height := by
  unfold Terrain_RaiseFaceVertex
  simp

@[simp]
theorem Terrain_RaiseFace_width (t : Terrain) (r c : ℕ) (δ : ℤ) :
    (Terrain_RaiseFace t r c δ).width = t.width := by
  unfold Terrain_RaiseFace
  simp

@[simp]
theorem Terrain_RaiseFace_height (t : Terrain) (r c : ℕ) (δ : ℤ) :
    (Terrain_RaiseFace t r c δ).height = t.height := by
  unfold Terrain_RaiseFace
  simp

/-! ## Pointwise effect of the editing operations on face corners -/

/-- Decoding a row-major flat index: with both columns in range, flat
indices agree exactly when the coordinate pairs do. -/
theorem flat_eq_iff {w r1 c1 r2 c2 : ℕ} (h1 : c1 < w) (h2 : c2 < w) :
    r1 * w + c1 = r2 * w + c2 ↔ r1 = r2 ∧ c1 = c2 := by
  constructor
  · intro h
    have hw : 0 < w := lt_of_le_of_lt (Nat.zero_le _) h1
    have h' : c1 + r1 * w = c2 + r2 * w := by omega
    have hdiv : (c1 + r1 * w) / w = (c2 + r2 * w) / w := by rw [h']
    rw [Nat.add_mul_div_right _ _ hw, Nat.add_mul_div_right _ _ hw,
        Nat.div_eq_of_lt h1, Nat.div_eq_of_lt h2] at hdiv
    have hmod : (c1 + r1 * w) % w = (c2 + r2 * w) % w := by rw [h']
    rw [Nat.add_mul_mod_self_right, Nat.add_mul_mod_self_right,
        Nat.mod_eq_of_lt h1, Nat.mod_eq_of_lt h2] at hmod
    exact ⟨by omega, hmod⟩
  · rintro ⟨rfl, rfl⟩
    rfl

theorem cornerVal_ite (c : Prop) [Decidable c] (a b : Terrain) (ρ κ : ℕ) (ν : Fin 4) :
    cornerVal (if c then a else b) ρ κ ν =
      if c then cornerVal a ρ κ ν else cornerVal b ρ κ ν :=
  apply_ite (fun t => cornerVal t ρ κ ν) c a b

/-- Source item `Face_RaiseVertex` at corner `v0` leaves every other corner of every face
untouched. -/
theorem cornerVal_Face_RaiseVertex_ne (t : Terrain) (r0 c0 : ℕ) (v0 : Fin 4)
    (δ : ℤ) (ρ κ : ℕ) (ν : Fin 4) (hν : ν ≠ v0) :
    cornerVal (Face_RaiseVertex t r0 c0 v0 δ) ρ κ ν = cornerVal t ρ κ ν := by
  unfold cornerVal Face_RaiseVertex Terrain_SetFace Terrain_GetFace Terrain_FaceWidth
  dsimp only
  by_cases hidx : ρ * t.width + κ = r0 * t.width + c0
  · rw [hidx]
    simp only [Function.update_same]
    rw [Function.update_noteq hν]
  · rw [Function.update_noteq hidx]

/-- The pointwise effect of `Face_RaiseVertex`: with both columns in range,
exactly the addressed corner changes, by `clampAdd`. -/
theorem cornerVal_Face_RaiseVertex (t : Terrain) (r0 c0 : ℕ) (v0 : Fin 4)
    (δ : ℤ) (ρ κ : ℕ) (ν : Fin 4) (hc0 : c0 < t.width) (hκ : κ < t.width) :
    cornerVal (Face_RaiseVertex t r0 c0 v0 δ) ρ κ ν =
      if ρ = r0 ∧ κ = c0 ∧ ν = v0 then clampAdd (cornerVal t ρ κ ν) δ
      else cornerVal t ρ κ ν := by
  unfold cornerVal Face_RaiseVertex Terrain_SetFace Terrain_GetFace Terrain_FaceWidth
  dsimp only
  by_cases hidx : ρ * t.width + κ = r0 * t.width + c0
  · obtain ⟨hρ, hκ2⟩ := (flat_eq_iff hκ hc0).mp hidx
    subst hρ
    subst hκ2
    simp only [Function.update_same]
    by_cases hν : ν = v0
    · subst hν
      rw [Function.update_same, if_pos ⟨trivial, trivial, rfl⟩]
    · rw [Function.update_noteq hν, if_neg (fun h => hν h.2.2)]
  · have hne : ¬(ρ = r0 ∧ κ = c0 ∧ ν = v0) := by
      rintro ⟨rfl, rfl, -⟩
      exact hidx rfl
    rw [Function.update_noteq hidx, if_neg hne]

/-- The pointwise effect of `Terrain_RaiseVertex` on an in-range vertex
`(r, c)`: a face corner changes exactly when it is a redundant copy of the
logical vertex `(r, c)`, and then it changes by `clampAdd`.  In particular
all copies of `(r, c)` receive the same update function. -/
theorem cornerVal_Terrain_RaiseVertex (t : Terrain) (r c : ℕ) (δ : ℤ)
    (hr : r ≤ t.height) (hc : c ≤ t.width) (ρ κ : ℕ)
    (hρ : ρ < t.height) (hκ : κ < t.width) (ν : Fin 4) :
    cornerVal (Terrain_RaiseVertex t r c δ) ρ κ ν =
      if logicalRow ρ ν = r ∧ logicalCol κ ν = c
      then clampAdd (cornerVal t ρ κ ν) δ else cornerVal t ρ κ ν := by
  have hw0 : 0 < t.width := lt_of_le_of_lt (Nat.zero_le _) hκ
  have hc1 : c - 1 < t.width := by omega
  unfold Terrain_RaiseVertex
  dsimp only
  simp only [Terrain_FaceHeight, Terrain_FaceWidth]
  by_cases hcw : c < t.width
  · fin_cases ν <;>
      simp [cornerVal_ite, logicalRow, logicalCol,
        cornerVal_Face_RaiseVertex, cornerVal_Face_RaiseVertex_ne,
        TOP_LEFT, TOP_RIGHT, BOTTOM_RIGHT, BOTTOM_LEFT,
        hκ, hc1, hcw] <;>
      (try split_ifs) <;> first | rfl | omega
  · fin_cases ν <;>
      simp [cornerVal_ite, logicalRow, logicalCol,
        cornerVal_Face_RaiseVertex, cornerVal_Face_RaiseVertex_ne,
        TOP_LEFT, TOP_RIGHT, BOTTOM_RIGHT, BOTTOM_LEFT,
        hκ, hc1, hcw] <;>
      (try split_ifs) <;> first | rfl | omega

@[simp]
theorem logicalRow_TOP_LEFT (row : ℕ) : logicalRow row TOP_LEFT = row + 1 := by
  rw [logicalRow]
  exact if_pos (by decide)

@[simp]
theorem logicalRow_TOP_RIGHT (row : ℕ) : logicalRow row TOP_RIGHT = row + 1 := by
  rw [logicalRow]
  exact if_pos (by decide)

@[simp]
theorem logicalRow_BOTTOM_RIGHT (row : ℕ) : logicalRow row BOTTOM_RIGHT = row := by
  rw [logicalRow]
  exact if_neg (by decide)

@[simp]
theorem logicalRow_BOTTOM_LEFT (row : ℕ) : logicalRow row BOTTOM_LEFT = row := by
  rw [logicalRow]
  exact if_neg (by decide)

@[simp]
theorem logicalCol_TOP_LEFT (col : ℕ) : logicalCol col TOP_LEFT = col := by
  rw [logicalCol]
  exact if_neg (by decide)

@[simp]
theorem logicalCol_TOP_RIGHT (col : ℕ) : logicalCol col TOP_RIGHT = col + 1 := by
  rw [logicalCol]
  exact if_pos (by decide)

@[simp]
theorem logicalCol_BOTTOM_RIGHT (col : ℕ) : logicalCol col BOTTOM_RIGHT = col + 1 := by
  rw [logicalCol]
  exact if_pos (by decide)

@[simp]
theorem logicalCol_BOTTOM_LEFT (col : ℕ) : logicalCol col BOTTOM_LEFT = col := by
  rw [logicalCol]
  exact if_neg (by decide)

/-- Effect of `Terrain_RaiseVertex (r, c)` on the F1 copy (face
`(row, col-1)`, corner `BOTTOM_RIGHT`) of the logical vertex `(row, col)`. -/
theorem cornerVal_RaiseVertex_copyF1 (t : Terrain) (r c : ℕ) (δ : ℤ) (row col : ℕ)
    (hr : r ≤ t.height) (hc : c ≤ t.width) (hcol : col ≤ t.width)
    (h1 : row < t.height) (h2 : 0 < col) :
    cornerVal (Terrain_RaiseVertex t r c δ) row (col - 1) BOTTOM_RIGHT =
      if row = r ∧ col = c then clampAdd (cornerVal t row (col - 1) BOTTOM_RIGHT) δ
      else cornerVal t row (col - 1) BOTTOM_RIGHT := by
  rw [cornerVal_Terrain_RaiseVertex t r c δ hr hc row (col - 1) h1 (by omega) BOTTOM_RIGHT]
  exact if_congr (by simp; omega) rfl rfl

/-- Effect of `Terrain_RaiseVertex (r, c)` on the F2 copy (face
`(row, col)`, corner `BOTTOM_LEFT`) of the logical vertex `(row, col)`. -/
theorem cornerVal_RaiseVertex_copyF2 (t : Terrain) (r c : ℕ) (δ : ℤ) (row col : ℕ)
    (hr : r ≤ t.height) (hc : c ≤ t.width)
    (h1 : row < t.height) (h2 : col < t.width) :
    cornerVal (Terrain_RaiseVertex t r c δ) row col BOTTOM_LEFT =
      if row = r ∧ col = c then clampAdd (cornerVal t row col BOTTOM_LEFT) δ
      else cornerVal t row col BOTTOM_LEFT := by
  rw [cornerVal_Terrain_RaiseVertex t r c δ hr hc row col h1 h2 BOTTOM_LEFT]
  exact if_congr (by simp) rfl rfl

/-- Effect of `Terrain_RaiseVertex (r, c)` on the F3 copy (face
`(row-1, col)`, corner `TOP_LEFT`) of the logical vertex `(row, col)`. -/
theorem cornerVal_RaiseVertex_copyF3 (t : Terrain) (r c : ℕ) (δ : ℤ) (row col : ℕ)
    (hr : r ≤ t.height) (hc : c ≤ t.width) (hrow : row ≤ t.height)
    (h1 : 0 < row) (h2 : col < t.width) :
    cornerVal (Terrain_RaiseVertex t r c δ) (row - 1) col TOP_LEFT =
      if row = r ∧ col = c then clampAdd (cornerVal t (row - 1) col TOP_LEFT) δ
      else cornerVal t (row - 1) col TOP_LEFT := by
  rw [cornerVal_Terrain_RaiseVertex t r c δ hr hc (row - 1) col (by omega) h2 TOP_LEFT]
  exact if_congr (by simp; omega) rfl rfl

/-- Effect of `Terrain_RaiseVertex (r, c)` on the F4 copy (face
`(row-1, col-1)`, corner `TOP_RIGHT`) of the logical vertex `(row, col)`. -/
theorem cornerVal_RaiseVertex_copyF4 (t : Terrain) (r c : ℕ) (δ : ℤ) (row col : ℕ)
    (hr : r ≤ t.height) (hc : c ≤ t.width) (hrow : row ≤ t.height) (hcol : col ≤ t.width)
    (h1 : 0 < row) (h2 : 0 < col) :
    cornerVal (Terrain_RaiseVertex t r c δ) (row - 1) (col - 1) TOP_RIGHT =
      if row = r ∧ col = c then clampAdd (cornerVal t (row - 1) (col - 1) TOP_RIGHT) δ
      else cornerVal t (row - 1) (col - 1) TOP_RIGHT := by
  rw [cornerVal_Terrain_RaiseVertex t r c δ hr hc (row - 1) (col - 1) (by omega) (by omega)
    TOP_RIGHT]
  exact if_congr (by simp; omega) rfl rfl

/-- Source item `Terrain_RaiseVertex` applies one and the same transformation to every
redundant copy of the logical vertex `(row, col)`: `clampAdd · δ` when
`(row, col)` is the raised vertex, the identity otherwise. -/
theorem VertexCopies_Terrain_RaiseVertex (t : Terrain) (r c : ℕ) (δ : ℤ)
    (hr : r ≤ Terrain_FaceHeight t) (hc : c ≤ Terrain_FaceWidth t) (row col : ℕ)
    (hrow : row ≤ Terrain_FaceHeight t) (hcol : col ≤ Terrain_FaceWidth t) :
    VertexCopies (Terrain_RaiseVertex t r c δ) row col =
      (VertexCopies t row col).map
        (fun z => if row = r ∧ col = c then clampAdd z δ else z) := by
  simp only [Terrain_FaceHeight, Terrain_FaceWidth] at hr hc hrow hcol
  unfold VertexCopies
  simp only [Terrain_RaiseVertex_width, Terrain_RaiseVertex_height,
    Terrain_FaceHeight, Terrain_FaceWidth, List.map_append]
  have e1 : (if row < t.height ∧ 0 < col
        then [cornerVal (Terrain_RaiseVertex t r c δ) row (col - 1) BOTTOM_RIGHT] else []) =
      (if row < t.height ∧ 0 < col
        then [cornerVal t row (col - 1) BOTTOM_RIGHT] else []).map
        (fun z => if row = r ∧ col = c then clampAdd z δ else z) := by
    by_cases g : row < t.height ∧ 0 < col
    · simp only [if_pos g, List.map_cons, List.map_nil]
      rw [cornerVal_RaiseVertex_copyF1 t r c δ row col hr hc hcol g.1 g.2]
    · simp [g]
  have e2 : (if row < t.height ∧ col < t.width
        then [cornerVal (Terrain_RaiseVertex t r c δ) row col BOTTOM_LEFT] else []) =
      (if row < t.height ∧ col < t.width
        then [cornerVal t row col BOTTOM_LEFT] else []).map
        (fun z => if row = r ∧ col = c then clampAdd z δ else z) := by
    by_cases g : row < t.height ∧ col < t.width
    · simp only [if_pos g, List.map_cons, List.map_nil]
      rw [cornerVal_RaiseVertex_copyF2 t r c δ row col hr hc g.1 g.2]
    · simp [g]
  have e3 : (if 0 < row ∧ col < t.width
        then [cornerVal (Terrain_RaiseVertex t r c δ) (row - 1) col TOP_LEFT] else []) =
      (if 0 < row ∧ col < t.width
        then [cornerVal t (row - 1) col TOP_LEFT] else []).map
        (fun z => if row = r ∧ col = c then clampAdd z δ else z) := by
    by_cases g : 0 < row ∧ col < t.width
    · simp only [if_pos g, List.map_cons, List.map_nil]
      rw [cornerVal_RaiseVertex_copyF3 t r c δ row col hr hc hrow g.1 g.2]
    · simp [g]
  have e4 : (if 0 < row ∧ 0 < col
        then [cornerVal (Terrain_RaiseVertex t r c δ) (row - 1) (col - 1) TOP_RIGHT] else []) =
      (if 0 < row ∧ 0 < col
        then [cornerVal t (row - 1) (col - 1) TOP_RIGHT] else []).map
        (fun z => if row = r ∧ col = c then clampAdd z δ else z) := by
    by_cases g : 0 < row ∧ 0 < col
    · simp only [if_pos g, List.map_cons, List.map_nil]
      rw [cornerVal_RaiseVertex_copyF4 t r c δ row col hr hc hrow hcol g.1 g.2]
    · simp [g]
  rw [e1, e2, e3, e4]

/-- Source item `Terrain_RaiseVertex` with in-range arguments preserves the
redundant-copy invariant. -/
theorem Terrain_RaiseVertex_consistent (t : Terrain) (r c : ℕ) (δ : ℤ)
    (hr : r ≤ Terrain_FaceHeight t) (hc : c ≤ Terrain_FaceWidth t)
    (hcons : Terrain_VertexConsistent t) :
    Terrain_VertexConsistent (Terrain_RaiseVertex t r c δ) := by
  intro row col hrow hcol z1 hz1 z2 hz2
  simp only [Terrain_FaceHeight, Terrain_FaceWidth, Terrain_RaiseVertex_width,
    Terrain_RaiseVertex_height] at hrow hcol
  rw [VertexCopies_Terrain_RaiseVertex t r c δ hr hc row col hrow hcol] at hz1 hz2
  obtain ⟨w1, hw1, rfl⟩ := List.mem_map.mp hz1
  obtain ⟨w2, hw2, rfl⟩ := List.mem_map.mp hz2
  rw [hcons row col hrow hcol w1 hw1 w2 hw2]

/-- Source item `Terrain_RaiseFaceVertex` on an in-range face preserves the
redundant-copy invariant (it delegates to `Terrain_RaiseVertex`). -/
theorem Terrain_RaiseFaceVertex_consistent (t : Terrain) (mn mx row col : ℕ)
    (v : Fin 4) (δ : ℤ) (hrow : row < Terrain_FaceHeight t)
    (hcol : col < Terrain_FaceWidth t) (hcons : Terrain_VertexConsistent t) :
    Terrain_VertexConsistent (Terrain_RaiseFaceVertex t mn mx row col v δ) := by
  unfold Terrain_RaiseFaceVertex
  dsimp only
  apply Terrain_RaiseVertex_consistent t _ _ _ _ _ hcons
  · simp only [Terrain_FaceHeight] at hrow ⊢
    unfold logicalRow
    split_ifs <;> omega
  · simp only [Terrain_FaceWidth] at hcol ⊢
    unfold logicalCol
    split_ifs <;> omega

/-- Source item `Terrain_RaiseFace` on an in-range face preserves the redundant-copy
invariant. -/
theorem Terrain_RaiseFace_consistent (t : Terrain) (row col : ℕ) (δ : ℤ)
    (hrow : row < Terrain_FaceHeight t) (hcol : col < Terrain_FaceWidth t)
    (hcons : Terrain_VertexConsistent t) :
    Terrain_VertexConsistent (Terrain_RaiseFace t row col δ) := by
  unfold Terrain_RaiseFace
  dsimp only
  simp only [Terrain_FaceHeight, Terrain_FaceWidth] at hrow hcol
  apply Terrain_RaiseFaceVertex_consistent <;>
    try simp [Terrain_FaceHeight, Terrain_FaceWidth, hrow, hcol]
  apply Terrain_RaiseFaceVertex_consistent <;>
    try simp [Terrain_FaceHeight, Terrain_FaceWidth, hrow, hcol]
  apply Terrain_RaiseFaceVertex_consistent <;>
    try simp [Terrain_FaceHeight, Terrain_FaceWidth, hrow, hcol]
  apply Terrain_RaiseFaceVertex_consistent <;>
    try simp [Terrain_FaceHeight, Terrain_FaceWidth, hrow, hcol]
  exact hcons

/-- The freshly initialized terrain satisfies the redundant-copy invariant
(every copy is `0`). -/
theorem Terrain_Init_consistent (width height res : ℕ) :
    Terrain_VertexConsistent (Terrain_Init width height res) := by
  intro row col _ _ z1 hz1 z2 hz2
  have hval : ∀ z ∈ VertexCopies (Terrain_Init width height res) row col, z = 0 := by
    intro z hz
    unfold VertexCopies at hz
    simp only [List.mem_append] at hz
    rcases hz with ((hz | hz) | hz) | hz <;>
      · split_ifs at hz <;>
          simp_all [cornerVal, Terrain_GetFace, Terrain_Init]
  rw [hval z1 hz1, hval z2 hz2]

@[simp]
theorem TerrainOp_apply_width (op : TerrainOp) (t : Terrain) :
    (op.apply t).width = t.width := by
  cases op <;> simp [TerrainOp.apply]

@[simp]
theorem TerrainOp_apply_height (op : TerrainOp) (t : Terrain) :
    (op.apply t).height = t.height := by
  cases op <;> simp [TerrainOp.apply]

/-- One in-range editing call preserves the redundant-copy invariant. -/
theorem TerrainOp_apply_consistent (op : TerrainOp) (t : Terrain)
    (hop : op.InRange t.width t.height) (hcons : Terrain_VertexConsistent t) :
    Terrain_VertexConsistent (op.apply t) := by
  cases op with
  | raiseVertex r c δ =>
    exact Terrain_RaiseVertex_consistent t r c δ hop.1 hop.2 hcons
  | raiseFace r c δ =>
    exact Terrain_RaiseFace_consistent t r c δ hop.1 hop.2 hcons

/-- Any in-range editing sequence applied to a consistent terrain leaves it
consistent. -/
theorem applyOps_consistent (ops : List TerrainOp) :
    ∀ t : Terrain, (∀ op ∈ ops, op.InRange t.width t.height) →
      Terrain_VertexConsistent t → Terrain_VertexConsistent (applyOps ops t) := by
  induction ops with
  | nil =>
    intro t _ hcons
    exact hcons
  | cons op rest ih =>
    intro t hops hcons
    have hstep := TerrainOp_apply_consistent op t (hops op (List.mem_cons_self op rest)) hcons
    have hrest : ∀ o ∈ rest, o.InRange (op.apply t).width (op.apply t).height := by
      intro o ho
      rw [TerrainOp_apply_width, TerrainOp_apply_height]
      exact hops o (List.mem_cons_of_mem _ ho)
    exact ih (op.apply t) hrest hstep

/-- C1: for every terrain initialized by `Terrain_Init` and every finite
sequence of `Terrain_RaiseVertex` / `Terrain_RaiseFace` calls with in-range
arguments, after every call (in particular after every prefix of the
sequence) all redundant per-face copies of each logical vertex hold exactly
equal values. -/
theorem C1_raise_ops_preserve_vertex_copies (width height res : ℕ)
    (ops : List TerrainOp) (hops : ∀ op ∈ ops, op.InRange width height) :
    Terrain_VertexConsistent (applyOps ops (Terrain_Init width height res)) := by
  apply applyOps_consistent ops (Terrain_Init width height res)
  · intro op hop
    exact hops op hop
  · exact Terrain_Init_consistent width height res

/-- Witness for C1 at a concrete editing sequence on a 2×2 terrain. -/
theorem C1_raise_ops_preserve_vertex_copies_witness :
    (∀ op ∈ [TerrainOp.raiseVertex 1 1 5, TerrainOp.raiseFace 0 0 3,
             TerrainOp.raiseVertex 2 2 (-2)], op.InRange 2 2) ∧
    Terrain_VertexConsistent
      (applyOps [TerrainOp.raiseVertex 1 1 5, TerrainOp.raiseFace 0 0 3,
                 TerrainOp.raiseVertex 2 2 (-2)] (Terrain_Init 2 2 10)) :=
  ⟨by decide, C1_raise_ops_preserve_vertex_copies 2 2 10 _ (by decide)⟩

/-- Every corner index is one of the four named corners. -/
theorem fin4_corner_cases (i : Fin 4) :
    i = TOP_LEFT ∨ i = TOP_RIGHT ∨ i = BOTTOM_RIGHT ∨ i = BOTTOM_LEFT := by
  fin_cases i
  · exact Or.inl (by decide)
  · exact Or.inr (Or.inl (by decide))
  · exact Or.inr (Or.inr (Or.inl (by decide)))
  · exact Or.inr (Or.inr (Or.inr (by decide)))

/-- Effect of `Terrain_RaiseFaceVertex` on the corners of the face it
operates on: only the addressed corner changes, by `clampAdd` of the
`real_delta` computed from that corner's current height. -/
theorem cornerVal_Terrain_RaiseFaceVertex_self (t : Terrain) (mn mx : ℕ)
    (r c : ℕ) (v : Fin 4) (δ : ℤ) (hr : r < t.height) (hc : c < t.width)
    (ν : Fin 4) :
    cornerVal (Terrain_RaiseFaceVertex t mn mx r c v δ) r c ν =
      if ν = v
      then clampAdd (cornerVal t r c ν) (realDelta mn mx (cornerVal t r c v) δ)
      else cornerVal t r c ν := by
  unfold Terrain_RaiseFaceVertex
  dsimp only
  have hb1 : logicalRow r v ≤ t.height := by
    unfold logicalRow
    split_ifs <;> omega
  have hb2 : logicalCol c v ≤ t.width := by
    unfold logicalCol
    split_ifs <;> omega
  rw [cornerVal_Terrain_RaiseVertex t _ _ _ hb1 hb2 r c hr hc ν]
  have hiff : (logicalRow r ν = logicalRow r v ∧ logicalCol c ν = logicalCol c v) ↔
      ν = v := by
    constructor
    · intro h
      fin_cases ν <;> fin_cases v <;>
        simp_all [logicalRow, logicalCol, TOP_LEFT, TOP_RIGHT, BOTTOM_RIGHT,
          BOTTOM_LEFT]
    · rintro rfl
      exact ⟨rfl, rfl⟩
  rw [if_congr hiff rfl rfl]
  rfl

/-- Effect of `Terrain_RaiseFace` on the corners of the raised face itself:
each corner moves by `clampAdd` of the `real_delta` computed from the face's
min/max and that corner's height.  (Because each of the four delegated
`Terrain_RaiseVertex` calls touches a different corner of this face, the
four updates do not interfere.) -/
theorem cornerVal_Terrain_RaiseFace (t : Terrain) (r c : ℕ) (δ : ℤ)
    (hr : r < Terrain_FaceHeight t) (hc : c < Terrain_FaceWidth t) (ν : Fin 4) :
    cornerVal (Terrain_RaiseFace t r c δ) r c ν =
      clampAdd (cornerVal t r c ν)
        (realDelta (faceMin t r c) (faceMax t r c) (cornerVal t r c ν) δ) := by
  simp only [Terrain_FaceHeight, Terrain_FaceWidth] at hr hc
  unfold Terrain_RaiseFace
  dsimp only
  fin_cases ν <;>
    simp [cornerVal_Terrain_RaiseFaceVertex_self, hr, hc,
      TOP_LEFT, TOP_RIGHT, BOTTOM_RIGHT, BOTTOM_LEFT]

/-- C3: on a face whose corners are `[0,0,0,10]` (one raised corner),
`Terrain_RaiseFace` with `delta = 3` brings the three corners at `0` to
exactly `3` while the raised corner stays at `10`; a subsequent
`Terrain_RaiseFace` with `delta = 10` brings all four corners to `13`. -/
theorem C3_raiseFace_whole_face_leveling (t : Terrain) (r c : ℕ)
    (hr : r < Terrain_FaceHeight t) (hc : c < Terrain_FaceWidth t) (j : Fin 4)
    (hj : cornerVal t r c j = 10) (h0 : ∀ i, i ≠ j → cornerVal t r c i = 0) :
    (∀ i, i ≠ j → cornerVal (Terrain_RaiseFace t r c 3) r c i = 3) ∧
    cornerVal (Terrain_RaiseFace t r c 3) r c j = 10 ∧
    (∀ i, cornerVal (Terrain_RaiseFace (Terrain_RaiseFace t r c 3) r c 10) r c i = 13) := by
  have hv : ∀ i, cornerVal t r c i = if i = j then 10 else 0 := by
    intro i
    by_cases hi : i = j
    · rw [if_pos hi, hi, hj]
    · rw [if_neg hi, h0 i hi]
  have hmn : faceMin t r c = 0 := by
    rcases fin4_corner_cases j with rfl | rfl | rfl | rfl <;>
      simp [faceMin, hv, TOP_LEFT, TOP_RIGHT, BOTTOM_RIGHT, BOTTOM_LEFT]
  have hmx : faceMax t r c = 10 := by
    rcases fin4_corner_cases j with rfl | rfl | rfl | rfl <;>
      simp [faceMax, hv, TOP_LEFT, TOP_RIGHT, BOTTOM_RIGHT, BOTTOM_LEFT]
  have h1v : ∀ i, cornerVal (Terrain_RaiseFace t r c 3) r c i =
      if i = j then 10 else 3 := by
    intro i
    rw [cornerVal_Terrain_RaiseFace t r c 3 hr hc i, hmn, hmx, hv i]
    by_cases hi : i = j <;> simp [hi] <;> decide
  have hr1 : r < Terrain_FaceHeight (Terrain_RaiseFace t r c 3) := by
    simpa [Terrain_FaceHeight] using hr
  have hc1 : c < Terrain_FaceWidth (Terrain_RaiseFace t r c 3) := by
    simpa [Terrain_FaceWidth] using hc
  have hmn1 : faceMin (Terrain_RaiseFace t r c 3) r c = 3 := by
    rcases fin4_corner_cases j with rfl | rfl | rfl | rfl <;>
      simp [faceMin, h1v, TOP_LEFT, TOP_RIGHT, BOTTOM_RIGHT, BOTTOM_LEFT]
  have hmx1 : faceMax (Terrain_RaiseFace t r c 3) r c = 10 := by
    rcases fin4_corner_cases j with rfl | rfl | rfl | rfl <;>
      simp [faceMax, h1v, TOP_LEFT, TOP_RIGHT, BOTTOM_RIGHT, BOTTOM_LEFT]
  refine ⟨?_, ?_, ?_⟩
  · intro i hi
    rw [h1v i, if_neg hi]
  · rw [h1v j, if_pos rfl]
  · intro i
    rw [cornerVal_Terrain_RaiseFace _ r c 10 hr1 hc1 i, hmn1, hmx1, h1v i]
    by_cases hi : i = j <;> simp [hi] <;> decide

/-- Witness for C3 on a concrete 2×2 terrain whose face `(0,0)` has corners
`[0, 10, 0, 0]` (top-right raised by an earlier `Terrain_RaiseVertex`). -/
theorem C3_raiseFace_whole_face_leveling_witness :
    (0 < Terrain_FaceHeight (Terrain_RaiseVertex (Terrain_Init 2 2 1) 1 1 10) ∧
     0 < Terrain_FaceWidth (Terrain_RaiseVertex (Terrain_Init 2 2 1) 1 1 10) ∧
     cornerVal (Terrain_RaiseVertex (Terrain_Init 2 2 1) 1 1 10) 0 0 TOP_RIGHT = 10 ∧
     (∀ i, i ≠ TOP_RIGHT →
       cornerVal (Terrain_RaiseVertex (Terrain_Init 2 2 1) 1 1 10) 0 0 i = 0)) ∧
    ((∀ i, i ≠ TOP_RIGHT →
       cornerVal (Terrain_RaiseFace (Terrain_RaiseVertex (Terrain_Init 2 2 1) 1 1 10) 0 0 3)
         0 0 i = 3) ∧
     cornerVal (Terrain_RaiseFace (Terrain_RaiseVertex (Terrain_Init 2 2 1) 1 1 10) 0 0 3)
       0 0 TOP_RIGHT = 10 ∧
     (∀ i, cornerVal
        (Terrain_RaiseFace
          (Terrain_RaiseFace (Terrain_RaiseVertex (Terrain_Init 2 2 1) 1 1 10) 0 0 3) 0 0 10)
        0 0 i = 13)) :=
  ⟨⟨by decide, by decide, by decide, by decide⟩,
   C3_raiseFace_whole_face_leveling _ 0 0 (by decide) (by decide) TOP_RIGHT
     (by decide) (by decide)⟩

/-- C6 counterexample: `uint16_t` wraparound falsifies the claim as stated.
Starting from a 1×1 terrain, raising vertex `(0,0)` by `32767` twice leaves
its copy at `65534`; the claim then demands that a further
`Terrain_RaiseVertex` by `2` set it to `max(0, 65534 + 2) = 65536`, but the
code wraps the `uint16_t` to `0`. -/
theorem C6_raiseVertex_wraparound_counterexample :
    cornerVal (applyOps [TerrainOp.raiseVertex 0 0 32767, TerrainOp.raiseVertex 0 0 32767]
        (Terrain_Init 1 1 1)) 0 0 BOTTOM_LEFT = 65534 ∧
    cornerVal (Terrain_RaiseVertex
        (applyOps [TerrainOp.raiseVertex 0 0 32767, TerrainOp.raiseVertex 0 0 32767]
          (Terrain_Init 1 1 1)) 0 0 2) 0 0 BOTTOM_LEFT ≠
      (max 0 ((65534 : ℤ) + 2)).toNat := by
  exact ⟨by decide, by decide⟩

/-- C6 amended: for every in-range vertex and every delta such that
`old + delta` does not overflow the `uint16_t` range, `Terrain_RaiseVertex`
sets each copy of the vertex from its old value `old` to exactly
`max(0, old + delta)` (so, the elevations being unsigned, no vertex
elevation is ever negative). -/
theorem C6_raiseVertex_clamps_at_zero (t : Terrain) (r c : ℕ) (δ : ℤ)
    (hr : r ≤ Terrain_FaceHeight t) (hc : c ≤ Terrain_FaceWidth t)
    (ρ κ : ℕ) (ν : Fin 4)
    (hρ : ρ < Terrain_FaceHeight t) (hκ : κ < Terrain_FaceWidth t)
    (hcopy : logicalRow ρ ν = r ∧ logicalCol κ ν = c)
    (hnoflow : (cornerVal t ρ κ ν : ℤ) + δ ≤ 65535) :
    cornerVal (Terrain_RaiseVertex t r c δ) ρ κ ν =
      (max 0 ((cornerVal t ρ κ ν : ℤ) + δ)).toNat := by
  simp only [Terrain_FaceHeight, Terrain_FaceWidth] at hr hc hρ hκ
  rw [cornerVal_Terrain_RaiseVertex t r c δ hr hc ρ κ hρ hκ ν, if_pos hcopy]
  unfold clampAdd
  split_ifs with h
  · omega
  · omega

/-- Witness for the amended C6 on a fresh 1×1 terrain. -/
theorem C6_raiseVertex_clamps_at_zero_witness :
    (0 ≤ Terrain_FaceHeight (Terrain_Init 1 1 1) ∧
     0 ≤ Terrain_FaceWidth (Terrain_Init 1 1 1) ∧
     0 < Terrain_FaceHeight (Terrain_Init 1 1 1) ∧
     0 < Terrain_FaceWidth (Terrain_Init 1 1 1) ∧
     (logicalRow 0 BOTTOM_LEFT = 0 ∧ logicalCol 0 BOTTOM_LEFT = 0) ∧
     (cornerVal (Terrain_Init 1 1 1) 0 0 BOTTOM_LEFT : ℤ) + (-5) ≤ 65535) ∧
    cornerVal (Terrain_RaiseVertex (Terrain_Init 1 1 1) 0 0 (-5)) 0 0 BOTTOM_LEFT =
      (max 0 ((cornerVal (Terrain_Init 1 1 1) 0 0 BOTTOM_LEFT : ℤ) + (-5))).toNat :=
  ⟨⟨by decide, by decide, by decide, by decide, ⟨by decide, by decide⟩, by decide⟩,
   C6_raiseVertex_clamps_at_zero (Terrain_Init 1 1 1) 0 0 (-5) (by decide) (by decide)
     0 0 BOTTOM_LEFT (by decide) (by decide) ⟨by decide, by decide⟩ (by decide)⟩

/-! ## Flight-simulation lemmas -/

/-- One unfolding of `FlightSim_Step` when at least a full 5 ms sub-step of
time remains, so that `FloatMin(NUMERIC_DT, t) = 5`. -/
theorem FlightSim_Step_step (sqrtf : ℚ → ℚ) (terrain : Terrain) (t : ℚ)
    (st : ShotStatus) (h5 : (5 : ℚ) ≤ t) :
    FlightSim_Step sqrtf terrain t st =
      if (flightSubStep sqrtf terrain 5 st).2 then
        (if 0 < t - 5 then
          FlightSim_Step sqrtf terrain (t - 5) (flightSubStep sqrtf terrain 5 st).1
         else ((flightSubStep sqrtf terrain 5 st).1, true))
      else ((flightSubStep sqrtf terrain 5 st).1, false) := by
  have hdt : FloatMin NUMERIC_DT t = 5 := min_eq_left h5
  rw [FlightSim_Step, hdt]
  simp only [dite_eq_ite]

/-- The integration body never touches `hang_time`. -/
theorem flightSubStep_hang_time (sqrtf : ℚ → ℚ) (terrain : Terrain) (dt : ℚ)
    (st : ShotStatus) :
    (flightSubStep sqrtf terrain dt st).1.hang_time = st.hang_time := by
  unfold flightSubStep
  dsimp only
  split_ifs <;> rfl

/-- Source item `FlightSim_Step` never touches `hang_time` (it only updates `x`, `v`,
`s`). -/
theorem FlightSim_Step_hang_time (sqrtf : ℚ → ℚ) (terrain : Terrain) :
    ∀ (t : ℚ) (st : ShotStatus),
      (FlightSim_Step sqrtf terrain t st).1.hang_time = st.hang_time := by
  intro t st
  induction t, st using FlightSim_Step.induct sqrtf terrain with
  | case1 t st dt t1 r hr2 ht1 ih =>
    rw [FlightSim_Step]
    simp only [dite_eq_ite]
    rw [if_pos hr2, if_pos ht1, ih]
    exact flightSubStep_hang_time sqrtf terrain _ st
  | case2 t st dt t1 r hr2 ht1 =>
    rw [FlightSim_Step]
    simp only [dite_eq_ite]
    rw [if_pos hr2, if_neg ht1]
    exact flightSubStep_hang_time sqrtf terrain _ st
  | case3 t st dt r hr2 =>
    rw [FlightSim_Step]
    simp only [dite_eq_ite]
    rw [if_neg hr2]
    exact flightSubStep_hang_time sqrtf terrain _ st

/-- When the sub-step body reports the ball at rest, the clamped position
satisfies the resting contract: `z` equals the sampled terrain height if
`(x, y)` is inside the grid's horizontal extent, and `0` otherwise. -/
theorem flightSubStep_false_resting (sqrtf : ℚ → ℚ) (terrain : Terrain)
    (dt : ℚ) (st st1 : ShotStatus)
    (h : flightSubStep sqrtf terrain dt st = (st1, false)) :
    st1.x.z = if inBoundsXY terrain st1.x
              then Terrain_SampleHeight terrain st1.x.x st1.x.y else 0 := by
  unfold flightSubStep at h
  dsimp only at h
  split_ifs at h with hoob hz hzle
  · simp at h
  · injection h with h1 h2
    subst h1
    dsimp only
    rw [if_neg (by unfold inBoundsXY; dsimp only; tauto)]
  · injection h with h1 h2
    subst h1
    dsimp only
    rw [if_pos (by unfold inBoundsXY; dsimp only; tauto)]
  · simp at h

/-- When `FlightSim_Step` returns `false`, its final state comes from a
sub-step that reported the ball at rest, so the same resting contract
holds. -/
theorem FlightSim_Step_false_resting (sqrtf : ℚ → ℚ) (terrain : Terrain) :
    ∀ (t : ℚ) (st st1 : ShotStatus),
      FlightSim_Step sqrtf terrain t st = (st1, false) →
      st1.x.z = if inBoundsXY terrain st1.x
                then Terrain_SampleHeight terrain st1.x.x st1.x.y else 0 := by
  intro t st
  induction t, st using FlightSim_Step.induct sqrtf terrain with
  | case1 t st dt t1 r hr2 ht1 ih =>
    intro st1 h
    rw [FlightSim_Step] at h
    simp only [dite_eq_ite] at h
    rw [if_pos hr2, if_pos ht1] at h
    exact ih st1 h
  | case2 t st dt t1 r hr2 ht1 =>
    intro st1 h
    rw [FlightSim_Step] at h
    simp only [dite_eq_ite] at h
    rw [if_pos hr2, if_neg ht1] at h
    simp at h
  | case3 t st dt r hr2 =>
    intro st1 h
    rw [FlightSim_Step] at h
    simp only [dite_eq_ite] at h
    rw [if_neg hr2] at h
    injection h with hfst hsnd
    refine flightSubStep_false_resting sqrtf terrain (FloatMin NUMERIC_DT t) st st1 ?_
    have hfalse : (flightSubStep sqrtf terrain (FloatMin NUMERIC_DT t) st).2 = false := by
      revert hr2
      cases (flightSubStep sqrtf terrain (FloatMin NUMERIC_DT t) st).2 <;> simp
    exact Prod.ext_iff.mpr ⟨hfst, hfalse⟩

/-- Source item `Simulation_Step` reports `FlightSim_Step`'s flag unchanged and does not
move the ball: only the derived statistics are recomputed. -/
theorem Simulation_Step_x_flag (sqrtf acosf : ℚ → ℚ) (sim : Simulation)
    (dt : ℕ) (st : ShotStatus) :
    (Simulation_Step sqrtf acosf sim dt st).1.x =
      (FlightSim_Step sqrtf sim.terrain (dt : ℚ) st).1.x ∧
    (Simulation_Step sqrtf acosf sim dt st).2 =
      (FlightSim_Step sqrtf sim.terrain (dt : ℚ) st).2 := by
  unfold Simulation_Step
  dsimp only
  constructor
  · split_ifs <;> rfl
  · rfl

/-- C4: whenever a step of the flight simulation (`FlightSim_Step`, or
`Simulation_Step`, which wraps it) returns `false` (ball at rest), the final
position has `z` equal to the terrain height sampled at `(x, y)` when
`(x, y)` is inside the grid's horizontal extent, and `z = 0` otherwise. -/
theorem C4_rest_position_matches_terrain (sqrtf acosf : ℚ → ℚ)
    (terrain : Terrain) (t : ℚ) (st : ShotStatus)
    (sim : Simulation) (dt : ℕ) (st2 : ShotStatus) :
    ((FlightSim_Step sqrtf terrain t st).2 = false →
      (FlightSim_Step sqrtf terrain t st).1.x.z =
        (if inBoundsXY terrain (FlightSim_Step sqrtf terrain t st).1.x
         then Terrain_SampleHeight terrain (FlightSim_Step sqrtf terrain t st).1.x.x
                (FlightSim_Step sqrtf terrain t st).1.x.y
         else 0)) ∧
    ((Simulation_Step sqrtf acosf sim dt st2).2 = false →
      (Simulation_Step sqrtf acosf sim dt st2).1.x.z =
        (if inBoundsXY sim.terrain (Simulation_Step sqrtf acosf sim dt st2).1.x
         then Terrain_SampleHeight sim.terrain
                (Simulation_Step sqrtf acosf sim dt st2).1.x.x
                (Simulation_Step sqrtf acosf sim dt st2).1.x.y
         else 0)) := by
  constructor
  · intro hf
    exact FlightSim_Step_false_resting sqrtf terrain t st _
      (Prod.ext_iff.mpr ⟨rfl, hf⟩)
  · intro hf
    obtain ⟨hx, hflag⟩ := Simulation_Step_x_flag sqrtf acosf sim dt st2
    rw [hx]
    have hf2 : (FlightSim_Step sqrtf sim.terrain (dt : ℚ) st2).2 = false := by
      rw [← hflag]
      exact hf
    exact FlightSim_Step_false_resting sqrtf sim.terrain (dt : ℚ) st2 _
      (Prod.ext_iff.mpr ⟨rfl, hf2⟩)

/-! ## Sub-step iteration and frame-rate independence -/

theorem flightIter_succ_left (sqrtf : ℚ → ℚ) (terrain : Terrain) (k : ℕ)
    (st : ShotStatus) :
    flightIter sqrtf terrain (k + 1) st =
      flightIter sqrtf terrain k (flightSubStep sqrtf terrain 5 st).1 := by
  induction k with
  | zero => rfl
  | succ k ih =>
    show (flightSubStep sqrtf terrain 5 (flightIter sqrtf terrain (k + 1) st)).1 = _
    rw [ih]
    rfl

/-- A single `FlightSim_Step` call of `5 * n` milliseconds performs exactly
`n` sub-steps when the ball stays airborne through all of them. -/
theorem FlightSim_Step_five_mul (sqrtf : ℚ → ℚ) (terrain : Terrain) :
    ∀ (n : ℕ) (st : ShotStatus), 0 < n →
      (∀ k, k < n →
        (flightSubStep sqrtf terrain 5 (flightIter sqrtf terrain k st)).2 = true) →
      FlightSim_Step sqrtf terrain (5 * (n : ℚ)) st =
        (flightIter sqrtf terrain n st, true) := by
  intro n
  induction n with
  | zero =>
    intro st h0
    exact absurd h0 (lt_irrefl 0)
  | succ n ih =>
    intro st hpos hfly
    have hn0 : (0 : ℚ) ≤ (n : ℚ) := Nat.cast_nonneg n
    have h5 : (5 : ℚ) ≤ 5 * ((n + 1 : ℕ) : ℚ) := by
      push_cast
      linarith
    rw [FlightSim_Step_step sqrtf terrain _ st h5]
    have h0 : (flightSubStep sqrtf terrain 5 st).2 = true := hfly 0 (Nat.succ_pos n)
    rw [if_pos h0]
    have ht1 : 5 * ((n + 1 : ℕ) : ℚ) - 5 = 5 * (n : ℚ) := by
      push_cast
      ring
    rw [ht1]
    have hshift : ∀ k, k < n →
        (flightSubStep sqrtf terrain 5
          (flightIter sqrtf terrain k (flightSubStep sqrtf terrain 5 st).1)).2 = true := by
      intro k hk
      have h := hfly (k + 1) (by omega)
      rw [flightIter_succ_left] at h
      exact h
    by_cases hn : 0 < n
    · have hq : (0 : ℚ) < 5 * (n : ℚ) := by
        have : (0 : ℚ) < (n : ℚ) := by exact_mod_cast hn
        linarith
      rw [if_pos hq, ih ((flightSubStep sqrtf terrain 5 st).1) hn hshift,
        ← flightIter_succ_left]
    · have hn' : n = 0 := by omega
      subst hn'
      rw [if_neg (by norm_num)]
      rfl

/-- Repeated caller invocations (`n` of them) of `FlightSim_Step` with `dt = 5`
perform the same `n` sub-steps when the ball stays airborne. -/
theorem FlightSim_Multi_five (sqrtf : ℚ → ℚ) (terrain : Terrain) :
    ∀ (n : ℕ) (st : ShotStatus),
      (∀ k, k < n →
        (flightSubStep sqrtf terrain 5 (flightIter sqrtf terrain k st)).2 = true) →
      FlightSim_Multi sqrtf terrain 5 n st = (flightIter sqrtf terrain n st, true) := by
  intro n
  induction n with
  | zero =>
    intro st _
    rfl
  | succ n ih =>
    intro st hfly
    have h0 : (flightSubStep sqrtf terrain 5 st).2 = true := hfly 0 (Nat.succ_pos n)
    have hstep : FlightSim_Step sqrtf terrain 5 st =
        ((flightSubStep sqrtf terrain 5 st).1, true) := by
      rw [FlightSim_Step_step sqrtf terrain 5 st (le_refl 5), if_pos h0,
        if_neg (by norm_num)]
    have hshift : ∀ k, k < n →
        (flightSubStep sqrtf terrain 5
          (flightIter sqrtf terrain k (flightSubStep sqrtf terrain 5 st).1)).2 = true := by
      intro k hk
      have h := hfly (k + 1) (by omega)
      rw [flightIter_succ_left] at h
      exact h
    show (let r := FlightSim_Step sqrtf terrain 5 st
          if r.2 then FlightSim_Multi sqrtf terrain 5 n r.1 else (r.1, false)) =
      (flightIter sqrtf terrain (n + 1) st, true)
    rw [hstep]
    dsimp only
    rw [if_pos rfl, ih ((flightSubStep sqrtf terrain 5 st).1) hshift,
      ← flightIter_succ_left]

/-- C5: if the ball stays airborne through all twenty 5 ms sub-steps, one
`FlightSim_Step` call of `t = 100` produces exactly the same final state (in
this exact-arithmetic model: position, velocity, spin and all) as twenty
successive calls of `t = 5`. -/
theorem C5_frame_rate_independence (sqrtf : ℚ → ℚ) (terrain : Terrain)
    (st : ShotStatus)
    (hfly : ∀ k, k < 20 →
      (flightSubStep sqrtf terrain 5 (flightIter sqrtf terrain k st)).2 = true) :
    FlightSim_Step sqrtf terrain 100 st = FlightSim_Multi sqrtf terrain 5 20 st := by
  rw [FlightSim_Multi_five sqrtf terrain 20 st hfly]
  have h100 : (100 : ℚ) = 5 * ((20 : ℕ) : ℚ) := by norm_num
  rw [h100, FlightSim_Step_five_mul sqrtf terrain 20 st (by norm_num) hfly]

/-- Witness for C4: a ball dropped at the origin of a flat 2×2 terrain comes
to rest in one step, with `z` equal to the sampled height. -/
theorem C4_rest_position_matches_terrain_witness :
    ((FlightSim_Step (fun _ => 0) (Terrain_Init 2 2 10) 5 ShotStatus.zero).2 = false ∧
     (Simulation_Step (fun _ => 0) (fun _ => 0)
        (Simulation_New (fun _ => 0) (fun _ => 0) (Terrain_Init 2 2 10) ShotStatus.zero).1
        5 ShotStatus.zero).2 = false) ∧
    (FlightSim_Step (fun _ => 0) (Terrain_Init 2 2 10) 5 ShotStatus.zero).1.x.z =
      (if inBoundsXY (Terrain_Init 2 2 10)
            (FlightSim_Step (fun _ => 0) (Terrain_Init 2 2 10) 5 ShotStatus.zero).1.x
       then Terrain_SampleHeight (Terrain_Init 2 2 10)
              (FlightSim_Step (fun _ => 0) (Terrain_Init 2 2 10) 5 ShotStatus.zero).1.x.x
              (FlightSim_Step (fun _ => 0) (Terrain_Init 2 2 10) 5 ShotStatus.zero).1.x.y
       else 0) ∧
    (Simulation_Step (fun _ => 0) (fun _ => 0)
        (Simulation_New (fun _ => 0) (fun _ => 0) (Terrain_Init 2 2 10) ShotStatus.zero).1
        5 ShotStatus.zero).1.x.z =
      (if inBoundsXY
            (Simulation_New (fun _ => 0) (fun _ => 0) (Terrain_Init 2 2 10)
              ShotStatus.zero).1.terrain
            (Simulation_Step (fun _ => 0) (fun _ => 0)
              (Simulation_New (fun _ => 0) (fun _ => 0) (Terrain_Init 2 2 10)
                ShotStatus.zero).1 5 ShotStatus.zero).1.x
       then Terrain_SampleHeight
              (Simulation_New (fun _ => 0) (fun _ => 0) (Terrain_Init 2 2 10)
                ShotStatus.zero).1.terrain
              (Simulation_Step (fun _ => 0) (fun _ => 0)
                (Simulation_New (fun _ => 0) (fun _ => 0) (Terrain_Init 2 2 10)
                  ShotStatus.zero).1 5 ShotStatus.zero).1.x.x
              (Simulation_Step (fun _ => 0) (fun _ => 0)
                (Simulation_New (fun _ => 0) (fun _ => 0) (Terrain_Init 2 2 10)
                  ShotStatus.zero).1 5 ShotStatus.zero).1.x.y
       else 0) := by
  have hv00 : Terrain_GetVertex (Terrain_Init 2 2 10) 0 0 = 0 := by decide
  have hv01 : Terrain_GetVertex (Terrain_Init 2 2 10) 0 1 = 0 := by decide
  have hv11 : Terrain_GetVertex (Terrain_Init 2 2 10) 1 1 = 0 := by decide
  have hs : Terrain_SampleSetup (Terrain_Init 2 2 10) 0 0 = (0, 0, ⟨1, 0⟩, ⟨1, 1⟩, ⟨0, 0⟩) := by
    norm_num [Terrain_SampleSetup, Terrain_Init, Vec2.mk.injEq, Prod.mk.injEq]
  have hsample0 : Terrain_SampleHeight (Terrain_Init 2 2 10) 0 0 = 0 := by
    rw [Terrain_SampleHeight, hs]
    norm_num [round_eq, hv00, hv01, hv11]
  have hW : Terrain_FaceWidth (Terrain_Init 2 2 10) = 2 := by decide
  have hH : Terrain_FaceHeight (Terrain_Init 2 2 10) = 2 := by decide
  have hres : (Terrain_Init 2 2 10).xy_resolution = 10 := by decide
  have hsub : (flightSubStep (fun _ => 0) (Terrain_Init 2 2 10) 5 ShotStatus.zero).2 =
      false := by
    unfold flightSubStep ShotStatus.zero
    dsimp only
    norm_num [vec3_Scale, vec3_Add, vec3_Cross, vec3_Norm, GRAVITY, K_SPIN, K_DRAG,
      K_SPIN_DECAY, hW, hH, hres, hsample0]
  have hflight : (FlightSim_Step (fun _ => 0) (Terrain_Init 2 2 10) 5 ShotStatus.zero).2 =
      false := by
    rw [FlightSim_Step_step (fun _ => 0) (Terrain_Init 2 2 10) 5 ShotStatus.zero
      (le_refl 5), hsub]
    simp
  have hsim : (Simulation_Step (fun _ => 0) (fun _ => 0)
      (Simulation_New (fun _ => 0) (fun _ => 0) (Terrain_Init 2 2 10) ShotStatus.zero).1
      5 ShotStatus.zero).2 = false := by
    rw [(Simulation_Step_x_flag (fun _ => 0) (fun _ => 0)
      (Simulation_New (fun _ => 0) (fun _ => 0) (Terrain_Init 2 2 10) ShotStatus.zero).1
      5 ShotStatus.zero).2]
    rw [show (((5 : ℕ)) : ℚ) = 5 from by norm_num]
    exact hflight
  exact ⟨⟨hflight, hsim⟩,
    (C4_rest_position_matches_terrain (fun _ => 0) (fun _ => 0) (Terrain_Init 2 2 10) 5
      ShotStatus.zero
      (Simulation_New (fun _ => 0) (fun _ => 0) (Terrain_Init 2 2 10) ShotStatus.zero).1
      5 ShotStatus.zero).1 hflight,
    (C4_rest_position_matches_terrain (fun _ => 0) (fun _ => 0) (Terrain_Init 2 2 10) 5
      ShotStatus.zero
      (Simulation_New (fun _ => 0) (fun _ => 0) (Terrain_Init 2 2 10) ShotStatus.zero).1
      5 ShotStatus.zero).2 hsim⟩

/-! ## Hang time and the round orchestrator -/

/-- C10: after any sequence of `Simulation_Step` calls on a fresh simulation,
`hang_time` equals the sum of all caller-supplied `dt` arguments — including
the full `dt` of the call in which the ball came to rest, since
`Simulation_Step` adds `dt` unconditionally after `FlightSim_Step`. -/
theorem C10_hang_time_is_sum_of_dts (sqrtf acosf : ℚ → ℚ) (terrain : Terrain)
    (status0 : ShotStatus) (dts : List ℕ) :
    (Simulation_StepList sqrtf acosf
        (Simulation_New sqrtf acosf terrain status0).1 dts
        (Simulation_New sqrtf acosf terrain status0).2).hang_time =
      ((dts.sum : ℕ) : ℚ) := by
  have key : ∀ (sim : Simulation) (dts : List ℕ) (st : ShotStatus),
      (Simulation_StepList sqrtf acosf sim dts st).hang_time =
        st.hang_time + ((dts.sum : ℕ) : ℚ) := by
    intro sim dts
    induction dts with
    | nil =>
      intro st
      simp [Simulation_StepList]
    | cons d rest ih =>
      intro st
      have hstep : (Simulation_Step sqrtf acosf sim d st).1.hang_time =
          st.hang_time + (d : ℚ) := by
        unfold Simulation_Step
        dsimp only
        split_ifs <;> (dsimp only; rw [FlightSim_Step_hang_time])
      rw [Simulation_StepList, ih, hstep, List.sum_cons]
      push_cast
      ring
  rw [key]
  have h0 : (Simulation_New sqrtf acosf terrain status0).2.hang_time = 0 := rfl
  rw [h0, zero_add]

/-- C8: `Round_Swing` is a complete no-op while a shot is in progress;
otherwise it sets the status velocity and spin, leaves the ball position,
and starts a new simulator whose saved initial position is the current ball
position. -/
theorem C8_swing_noop_when_active (sqrtf acosf : ℚ → ℚ) (round : Round)
    (v s : Vec3) :
    (round.shot_sim.isSome = true → Round_Swing sqrtf acosf round v s = round) ∧
    (round.shot_sim = none →
      (Round_Swing sqrtf acosf round v s).shot =
          (Simulation_New sqrtf acosf round.terrain
            { round.shot with v := v, s := s }).2 ∧
      (Round_Swing sqrtf acosf round v s).shot.v = v ∧
      (Round_Swing sqrtf acosf round v s).shot.s = s ∧
      (Round_Swing sqrtf acosf round v s).shot.x = round.shot.x ∧
      (Round_Swing sqrtf acosf round v s).shot_sim =
        some (Simulation_New sqrtf acosf round.terrain
          { round.shot with v := v, s := s }).1 ∧
      (Simulation_New sqrtf acosf round.terrain
        { round.shot with v := v, s := s }).1.x0 = round.shot.x ∧
      (Round_Swing sqrtf acosf round v s).terrain = round.terrain) := by
  constructor
  · intro h
    unfold Round_Swing
    rw [if_pos h]
  · intro h
    have hnone : round.shot_sim.isSome = false := by
      rw [h]
      rfl
    unfold Round_Swing
    rw [hnone]
    exact ⟨rfl, rfl, rfl, rfl, rfl, rfl, rfl⟩

/-- Witness for C8: the active case on a round with a live simulation, the
inactive case on a fresh round. -/
theorem C8_swing_noop_when_active_witness :
    (({ shot_sim := some (Simulation_New (fun _ => 0) (fun _ => 0) (Terrain_Init 1 1 1)
          ShotStatus.zero).1, shot := ShotStatus.zero,
        terrain := Terrain_Init 1 1 1 } : Round).shot_sim.isSome = true ∧
     Round_Swing (fun _ => 0) (fun _ => 0)
       { shot_sim := some (Simulation_New (fun _ => 0) (fun _ => 0) (Terrain_Init 1 1 1)
           ShotStatus.zero).1, shot := ShotStatus.zero, terrain := Terrain_Init 1 1 1 }
       ⟨1, 2, 3⟩ ⟨0, 1, 0⟩ =
       { shot_sim := some (Simulation_New (fun _ => 0) (fun _ => 0) (Terrain_Init 1 1 1)
           ShotStatus.zero).1, shot := ShotStatus.zero, terrain := Terrain_Init 1 1 1 }) ∧
    ((Round_Start (Terrain_Init 1 1 1)).shot_sim = none ∧
     (Round_Swing (fun _ => 0) (fun _ => 0) (Round_Start (Terrain_Init 1 1 1))
        ⟨1, 2, 3⟩ ⟨0, 1, 0⟩).shot.v = ⟨1, 2, 3⟩ ∧
     (Round_Swing (fun _ => 0) (fun _ => 0) (Round_Start (Terrain_Init 1 1 1))
        ⟨1, 2, 3⟩ ⟨0, 1, 0⟩).shot.s = ⟨0, 1, 0⟩ ∧
     (Round_Swing (fun _ => 0) (fun _ => 0) (Round_Start (Terrain_Init 1 1 1))
        ⟨1, 2, 3⟩ ⟨0, 1, 0⟩).shot_sim =
       some (Simulation_New (fun _ => 0) (fun _ => 0) (Terrain_Init 1 1 1)
         { (Round_Start (Terrain_Init 1 1 1)).shot with v := ⟨1, 2, 3⟩, s := ⟨0, 1, 0⟩ }).1) := by
  refine ⟨⟨rfl, ?_⟩, rfl, ?_, ?_, ?_⟩
  · exact (C8_swing_noop_when_active (fun _ => 0) (fun _ => 0) _ ⟨1, 2, 3⟩ ⟨0, 1, 0⟩).1 rfl
  · exact ((C8_swing_noop_when_active (fun _ => 0) (fun _ => 0)
      (Round_Start (Terrain_Init 1 1 1)) ⟨1, 2, 3⟩ ⟨0, 1, 0⟩).2 rfl).2.1
  · exact ((C8_swing_noop_when_active (fun _ => 0) (fun _ => 0)
      (Round_Start (Terrain_Init 1 1 1)) ⟨1, 2, 3⟩ ⟨0, 1, 0⟩).2 rfl).2.2.1
  · exact ((C8_swing_noop_when_active (fun _ => 0) (fun _ => 0)
      (Round_Start (Terrain_Init 1 1 1)) ⟨1, 2, 3⟩ ⟨0, 1, 0⟩).2 rfl).2.2.2.2.1

/-- Witness for C5: a ball floated high above (and horizontally outside) a
2×2 terrain, with zero velocity and spin, stays airborne through all twenty
5 ms sub-steps of a 100 ms window. -/
theorem C5_frame_rate_independence_witness :
    (∀ k, k < 20 →
      (flightSubStep (fun _ => 0) (Terrain_Init 2 2 10) 5
        (flightIter (fun _ => 0) (Terrain_Init 2 2 10) k
          { ShotStatus.zero with x := ⟨50, 50, 1000⟩ })).2 = true) ∧
    FlightSim_Step (fun _ => 0) (Terrain_Init 2 2 10) 100
        { ShotStatus.zero with x := ⟨50, 50, 1000⟩ } =
      FlightSim_Multi (fun _ => 0) (Terrain_Init 2 2 10) 5 20
        { ShotStatus.zero with x := ⟨50, 50, 1000⟩ } := by
  have hW : Terrain_FaceWidth (Terrain_Init 2 2 10) = 2 := by decide
  have hres : (Terrain_Init 2 2 10).xy_resolution = 10 := by decide
  have hstep : ∀ st : ShotStatus, st.x.x = 50 → st.x.y = 50 → st.v.x = 0 →
      st.v.y = 0 → st.s = ⟨0, 0, 0⟩ → 0 < st.x.z + 5 * st.v.z →
      (flightSubStep (fun _ => 0) (Terrain_Init 2 2 10) 5 st).2 = true ∧
      (flightSubStep (fun _ => 0) (Terrain_Init 2 2 10) 5 st).1.x.x = 50 ∧
      (flightSubStep (fun _ => 0) (Terrain_Init 2 2 10) 5 st).1.x.y = 50 ∧
      (flightSubStep (fun _ => 0) (Terrain_Init 2 2 10) 5 st).1.x.z =
        st.x.z + 5 * st.v.z ∧
      (flightSubStep (fun _ => 0) (Terrain_Init 2 2 10) 5 st).1.v.x = 0 ∧
      (flightSubStep (fun _ => 0) (Terrain_Init 2 2 10) 5 st).1.v.y = 0 ∧
      (flightSubStep (fun _ => 0) (Terrain_Init 2 2 10) 5 st).1.v.z =
        st.v.z - 107 / 2000000 ∧
      (flightSubStep (fun _ => 0) (Terrain_Init 2 2 10) 5 st).1.s = ⟨0, 0, 0⟩ := by
    intro st h1 h2 h3 h4 h5 hz
    have hx1x : (vec3_Add (vec3_Scale 5 st.v) st.x).x = 50 := by
      simp [vec3_Add, vec3_Scale, h3, h1]
    have hz1 : (vec3_Add (vec3_Scale 5 st.v) st.x).z = st.x.z + 5 * st.v.z := by
      simp [vec3_Add, vec3_Scale]
      ring
    have hcond : ¬(0 ≤ (vec3_Add (vec3_Scale 5 st.v) st.x).x ∧
        (vec3_Add (vec3_Scale 5 st.v) st.x).x <
          (Terrain_FaceWidth (Terrain_Init 2 2 10) : ℚ) *
            ((Terrain_Init 2 2 10).xy_resolution : ℚ)) := by
      rw [hx1x, hW, hres]
      rintro ⟨-, hlt⟩
      norm_num at hlt
    unfold flightSubStep
    dsimp only
    rw [if_pos (Or.inl hcond), if_pos (by rw [hz1]; exact hz)]
    refine ⟨rfl, hx1x, ?_, hz1, ?_, ?_, ?_, ?_⟩
    · simp [vec3_Add, vec3_Scale, h4, h2]
    · simp [vec3_Add, vec3_Scale, vec3_Cross, vec3_Norm, GRAVITY, K_SPIN, K_DRAG,
        K_SPIN_DECAY, h5, h3]
    · simp [vec3_Add, vec3_Scale, vec3_Cross, vec3_Norm, GRAVITY, K_SPIN, K_DRAG,
        K_SPIN_DECAY, h5, h4]
    · simp [vec3_Add, vec3_Scale, vec3_Cross, vec3_Norm, GRAVITY, K_SPIN, K_DRAG,
        K_SPIN_DECAY, h5, h3, h4]
      norm_num
      ring
    · simp [vec3_Add, vec3_Scale, K_SPIN_DECAY, h5]
  have hiter : ∀ k, k ≤ 20 →
      (flightIter (fun _ => 0) (Terrain_Init 2 2 10) k
        { ShotStatus.zero with x := ⟨50, 50, 1000⟩ }).x.x = 50 ∧
      (flightIter (fun _ => 0) (Terrain_Init 2 2 10) k
        { ShotStatus.zero with x := ⟨50, 50, 1000⟩ }).x.y = 50 ∧
      (flightIter (fun _ => 0) (Terrain_Init 2 2 10) k
        { ShotStatus.zero with x := ⟨50, 50, 1000⟩ }).v.x = 0 ∧
      (flightIter (fun _ => 0) (Terrain_Init 2 2 10) k
        { ShotStatus.zero with x := ⟨50, 50, 1000⟩ }).v.y = 0 ∧
      (flightIter (fun _ => 0) (Terrain_Init 2 2 10) k
        { ShotStatus.zero with x := ⟨50, 50, 1000⟩ }).s = ⟨0, 0, 0⟩ ∧
      -(k : ℚ) / 1000 ≤ (flightIter (fun _ => 0) (Terrain_Init 2 2 10) k
        { ShotStatus.zero with x := ⟨50, 50, 1000⟩ }).v.z ∧
      (flightIter (fun _ => 0) (Terrain_Init 2 2 10) k
        { ShotStatus.zero with x := ⟨50, 50, 1000⟩ }).v.z ≤ 0 ∧
      1000 - (k : ℚ) / 10 ≤ (flightIter (fun _ => 0) (Terrain_Init 2 2 10) k
        { ShotStatus.zero with x := ⟨50, 50, 1000⟩ }).x.z ∧
      (flightIter (fun _ => 0) (Terrain_Init 2 2 10) k
        { ShotStatus.zero with x := ⟨50, 50, 1000⟩ }).x.z ≤ 1000 := by
    intro k
    induction k with
    | zero =>
      intro _
      refine ⟨rfl, rfl, rfl, rfl, rfl, ?_, ?_, ?_, ?_⟩ <;> norm_num [flightIter, ShotStatus.zero]
    | succ k ih =>
      intro hk20
      obtain ⟨i1, i2, i3, i4, i5, i6, i7, i8, i9⟩ := ih (by omega)
      have hkq : (k : ℚ) ≤ 19 := by
        have : k ≤ 19 := by omega
        exact_mod_cast this
      have hkq0 : (0 : ℚ) ≤ (k : ℚ) := Nat.cast_nonneg k
      have hz : 0 < (flightIter (fun _ => 0) (Terrain_Init 2 2 10) k
          { ShotStatus.zero with x := ⟨50, 50, 1000⟩ }).x.z +
          5 * (flightIter (fun _ => 0) (Terrain_Init 2 2 10) k
          { ShotStatus.zero with x := ⟨50, 50, 1000⟩ }).v.z := by
        nlinarith
      obtain ⟨-, s1, s2, s3, s4, s5, s6, s7⟩ :=
        hstep _ i1 i2 i3 i4 i5 hz
      have hcast : ((k + 1 : ℕ) : ℚ) = (k : ℚ) + 1 := by push_cast; ring
      have hunf : ∀ st : ShotStatus,
          flightIter (fun _ => (0 : ℚ)) (Terrain_Init 2 2 10) (k + 1) st =
            (flightSubStep (fun _ => 0) (Terrain_Init 2 2 10) 5
              (flightIter (fun _ => 0) (Terrain_Init 2 2 10) k st)).1 :=
        fun st => rfl
      rw [hunf]
      refine ⟨s1, s2, s4, s5, s7, ?_, ?_, ?_, ?_⟩
      · show -(((k + 1 : ℕ) : ℚ)) / 1000 ≤ _
        rw [s6, hcast]
        linarith
      · rw [s6]
        linarith
      · show 1000 - ((k + 1 : ℕ) : ℚ) / 10 ≤ _
        rw [s3, hcast]
        nlinarith
      · rw [s3]
        nlinarith
  have hfly : ∀ k, k < 20 →
      (flightSubStep (fun _ => 0) (Terrain_Init 2 2 10) 5
        (flightIter (fun _ => 0) (Terrain_Init 2 2 10) k
          { ShotStatus.zero with x := ⟨50, 50, 1000⟩ })).2 = true := by
    intro k hk
    obtain ⟨i1, i2, i3, i4, i5, i6, i7, i8, i9⟩ := hiter k (by omega)
    have hkq : (k : ℚ) ≤ 19 := by
      have : k ≤ 19 := by omega
      exact_mod_cast this
    have hkq0 : (0 : ℚ) ≤ (k : ℚ) := Nat.cast_nonneg k
    exact (hstep _ i1 i2 i3 i4 i5 (by nlinarith)).1
  exact ⟨hfly, C5_frame_rate_independence (fun _ => 0) (Terrain_Init 2 2 10) _ hfly⟩

/-! ## Launch and landing angles -/

/-- C7 counterexample: at initial velocity `v = (3, 0, 4)` the launch angle
computed by `Simulation_New` (and the landing angle computed by
`Simulation_Step`) is `arccos(3/5)`, which is not the angle of `v` from the
vertical, `arccos(4/5)`. -/
theorem C7_angle_from_vertical_counterexample :
    Simulation_New_launch_angle 3 0 4 ≠ angleFromVertical 3 0 4 ∧
    Simulation_Step_land_angle 3 0 4 ≠ angleFromVertical 3 0 4 := by
  have hn5 : vec3_NormR 3 0 4 = 5 := by
    unfold vec3_NormR
    rw [show (3 * 3 + 0 * 0 + 4 * 4 : ℝ) = 5 ^ 2 by norm_num]
    exact Real.sqrt_sq (by norm_num)
  have hn3 : vec3_NormR 3 0 0 = 3 := by
    unfold vec3_NormR
    rw [show (3 * 3 + 0 * 0 + 0 * 0 : ℝ) = 3 ^ 2 by norm_num]
    exact Real.sqrt_sq (by norm_num)
  have hlaunch : Simulation_New_launch_angle 3 0 4 = Real.arccos (3 / 5) := by
    unfold Simulation_New_launch_angle
    rw [hn3, hn5]
    norm_num
  have hland : Simulation_Step_land_angle 3 0 4 = Real.arccos (3 / 5) := by
    unfold Simulation_Step_land_angle
    rw [hn3, hn5]
    norm_num
  have hvert : angleFromVertical 3 0 4 = Real.arccos (4 / 5) := by
    unfold angleFromVertical
    rw [hn5]
  have hne : Real.arccos (3 / 5) ≠ Real.arccos (4 / 5) := by
    intro h
    have h35 := Real.cos_arccos (by norm_num : (-1 : ℝ) ≤ 3 / 5) (by norm_num)
    have h45 := Real.cos_arccos (by norm_num : (-1 : ℝ) ≤ 4 / 5) (by norm_num)
    rw [h, h45] at h35
    norm_num at h35
  exact ⟨by rw [hlaunch, hvert]; exact hne, by rw [hland, hvert]; exact hne⟩

/-- C7 amended: whenever the velocity has a nonzero horizontal component,
`launch_angle` (as computed by `Simulation_New`) and `land_angle` (as
recomputed by every `Simulation_Step`) are the angle of the velocity vector
measured from the horizontal plane — the complement of the angle from the
vertical — in radians. -/
theorem C7_angles_measured_from_horizontal (vx vy vz : ℝ)
    (hxy : 0 < vx * vx + vy * vy) :
    Simulation_New_launch_angle vx vy vz = angleFromHorizontal vx vy vz ∧
    Simulation_Step_land_angle vx vy vz = angleFromHorizontal vx vy vz := by
  have hA2 : vec3_NormR vx vy 0 * vec3_NormR vx vy 0 = vx * vx + vy * vy := by
    unfold vec3_NormR
    rw [show vx * vx + vy * vy + 0 * 0 = vx * vx + vy * vy by ring]
    exact Real.mul_self_sqrt (le_of_lt hxy)
  have hApos : 0 < vec3_NormR vx vy 0 := by
    unfold vec3_NormR
    apply Real.sqrt_pos.mpr
    nlinarith
  have hNN : vec3_NormR vx vy vz * vec3_NormR vx vy vz =
      vx * vx + vy * vy + vz * vz := by
    unfold vec3_NormR
    exact Real.mul_self_sqrt (by nlinarith)
  have hNpos : 0 < vec3_NormR vx vy vz := by
    unfold vec3_NormR
    apply Real.sqrt_pos.mpr
    nlinarith
  have hcos_launch : Simulation_New_launch_angle vx vy vz =
      Real.arccos (vec3_NormR vx vy 0 / vec3_NormR vx vy vz) := by
    unfold Simulation_New_launch_angle
    dsimp only
    congr 1
    have harg : vx * (1 / vec3_NormR vx vy 0 * vx) +
        vy * (1 / vec3_NormR vx vy 0 * vy) + vz * 0 =
        (vx * vx + vy * vy) / vec3_NormR vx vy 0 := by
      field_simp
    rw [harg, ← hA2, mul_div_assoc]
    rw [div_self (ne_of_gt hApos), mul_one]
  have hcos_land : Simulation_Step_land_angle vx vy vz =
      Real.arccos (vec3_NormR vx vy 0 / vec3_NormR vx vy vz) := by
    unfold Simulation_Step_land_angle
    congr 1
    rw [show vx * vx + vy * vy + vz * 0 = vx * vx + vy * vy by ring, ← hA2]
    rw [mul_comm (vec3_NormR vx vy vz) (vec3_NormR vx vy 0)]
    rw [mul_div_mul_left _ _ (ne_of_gt hApos)]
  have hdiv0 : 0 ≤ vec3_NormR vx vy 0 / vec3_NormR vx vy vz :=
    div_nonneg (le_of_lt hApos) (le_of_lt hNpos)
  have harange : Real.arccos (vec3_NormR vx vy 0 / vec3_NormR vx vy vz) ≤
      Real.pi / 2 := Real.arccos_le_pi_div_two.mpr hdiv0
  have h0range : 0 ≤ Real.arccos (vec3_NormR vx vy 0 / vec3_NormR vx vy vz) :=
    Real.arccos_nonneg _
  have hsin : Real.sin (Real.arccos (vec3_NormR vx vy 0 / vec3_NormR vx vy vz)) =
      |vz| / vec3_NormR vx vy vz := by
    rw [Real.sin_arccos]
    have h1 : 1 - (vec3_NormR vx vy 0 / vec3_NormR vx vy vz) ^ 2 =
        (vz / vec3_NormR vx vy vz) ^ 2 := by
      have hSne : vx * vx + vy * vy + vz * vz ≠ 0 := by nlinarith
      rw [div_pow, div_pow,
        show vec3_NormR vx vy 0 ^ 2 = vx * vx + vy * vy from by rw [sq]; exact hA2,
        show vec3_NormR vx vy vz ^ 2 = vx * vx + vy * vy + vz * vz from by
          rw [sq]; exact hNN]
      field_simp
      ring
    rw [h1, Real.sqrt_sq_eq_abs, abs_div, abs_of_pos hNpos]
  have hkey : Real.arccos (vec3_NormR vx vy 0 / vec3_NormR vx vy vz) =
      Real.arcsin (|vz| / vec3_NormR vx vy vz) := by
    rw [← hsin]
    refine (Real.arcsin_sin ?_ harange).symm
    have hpi : 0 < Real.pi := Real.pi_pos
    linarith
  refine ⟨?_, ?_⟩
  · rw [hcos_launch, hkey]
    unfold angleFromHorizontal
    rfl
  · rw [hcos_land, hkey]
    unfold angleFromHorizontal
    rfl

/-- Witness for the amended C7 at `v = (3, 0, 4)`. -/
theorem C7_angles_measured_from_horizontal_witness :
    (0 : ℝ) < 3 * 3 + 0 * 0 ∧
    (Simulation_New_launch_angle 3 0 4 = angleFromHorizontal 3 0 4 ∧
     Simulation_Step_land_angle 3 0 4 = angleFromHorizontal 3 0 4) :=
  ⟨by norm_num, C7_angles_measured_from_horizontal 3 0 4 (by norm_num)⟩

example :
    cornerVal (Terrain_RaiseVertex (Terrain_Init 2 2 1) 0 1 5) 0 0 BOTTOM_RIGHT = 5 := by
  decide

example :
    cornerVal (Terrain_RaiseVertex (Terrain_Init 2 2 1) 0 1 5) 0 1 BOTTOM_LEFT = 5 := by
  decide

/-- C2 code bug: sampling exactly at the vertex `(row, col) = (0, 1)` of a
2×2 terrain (world point `(x, y) = (1, 0)`, within the documented
precondition) does not return that vertex's stored elevation.  The vertex is
raised to `5`, yet `Terrain_SampleHeight` returns `0`, because the source
computes its face "row" from `x` (the column direction) and mixes the
fractional sample coordinates with absolute grid coordinates in the
barycentric weights. -/
theorem C2_sampleHeight_at_vertex_mismatch :
    SampleHeightPre (Terrain_RaiseVertex (Terrain_Init 2 2 1) 0 1 5) 1 0 ∧
    Terrain_GetVertex (Terrain_RaiseVertex (Terrain_Init 2 2 1) 0 1 5) 0 1 = 5 ∧
    Terrain_SampleHeight (Terrain_RaiseVertex (Terrain_Init 2 2 1) 0 1 5) 1 0 = 0 := by
  refine ⟨?_, by decide, ?_⟩
  · have hW : Terrain_FaceWidth (Terrain_RaiseVertex (Terrain_Init 2 2 1) 0 1 5) = 2 := by
      decide
    have hH : Terrain_FaceHeight (Terrain_RaiseVertex (Terrain_Init 2 2 1) 0 1 5) = 2 := by
      decide
    have hres : (Terrain_RaiseVertex (Terrain_Init 2 2 1) 0 1 5).xy_resolution = 1 := by
      decide
    unfold SampleHeightPre
    rw [hW, hH, hres]
    norm_num
  · have hres : (Terrain_RaiseVertex (Terrain_Init 2 2 1) 0 1 5).xy_resolution = 1 := by
      decide
    have hs : Terrain_SampleSetup (Terrain_RaiseVertex (Terrain_Init 2 2 1) 0 1 5) 1 0 =
        (0, 0, ⟨1, 1⟩, ⟨1, 2⟩, ⟨0, 1⟩) := by
      norm_num [Terrain_SampleSetup, hres, Vec2.mk.injEq, Prod.mk.injEq]
    have h11 : Terrain_GetVertex (Terrain_RaiseVertex (Terrain_Init 2 2 1) 0 1 5) 1 1 = 0 := by
      decide
    have h21 : Terrain_GetVertex (Terrain_RaiseVertex (Terrain_Init 2 2 1) 0 1 5)
        (Int.toNat 2) 1 = 0 := by
      decide
    have h10 : Terrain_GetVertex (Terrain_RaiseVertex (Terrain_Init 2 2 1) 0 1 5) 1 0 = 0 := by
      decide
    rw [Terrain_SampleHeight, hs]
    norm_num [round_eq, Int.toNat_ofNat, h11, h21, h10]

/-- C9 code bug: on the non-square 2×1 terrain, the in-precondition sample
point `(x, y) = (3/2, 1/2)` makes `Terrain_SampleHeight` look up the vertex
`(2, 1)`, which violates `Terrain_GetVertex`'s assertion
`row < Terrain_VertexHeight` (`2 < 2` fails) and reads past the face array. -/
theorem C9_sampleHeight_out_of_range_access :
    SampleHeightPre (Terrain_Init 2 1 1) (3 / 2) (1 / 2) ∧
    ¬ SampleAccessesInBounds (Terrain_Init 2 1 1) (3 / 2) (1 / 2) := by
  constructor
  · unfold SampleHeightPre Terrain_FaceWidth Terrain_FaceHeight Terrain_Init
    norm_num
  · have hs : Terrain_SampleSetup (Terrain_Init 2 1 1) (3 / 2) (1 / 2) =
        (1 / 2, 1 / 2, ⟨1, 1⟩, ⟨1, 2⟩, ⟨0, 1⟩) := by
      norm_num [Terrain_SampleSetup, Terrain_Init, Vec2.mk.injEq, Prod.mk.injEq]
    have hacc : Terrain_SampleAccesses (Terrain_Init 2 1 1) (3 / 2) (1 / 2) =
        [(1, 1), (2, 1), (1, 0)] := by
      rw [Terrain_SampleAccesses, hs]
      norm_num [round_eq]
      decide
    unfold SampleAccessesInBounds
    rw [hacc]
    decide

end GolfSim
